import Mathlib

/-!
Shallow embedding of the kibana-pathfinder graph state/layout core.

The definitions below are translated from the TypeScript sources:
`StateManager` (graph state store), `NavigationTracker` (navigation session
tracker), `PathfinderViewProvider` (webview message handler),
`PathfinderGraph.tsx` (view projection filter), `resolveCollisions.ts`
(collision resolution post-pass) and `forceLayoutWorker.ts` (layout fallback).
Geometry uses exact rationals in place of JS doubles; JS arrays become lists;
`undefined`-able fields become `Option`.
-/

/-- Symbol information `{name, line, filePath}` (types.ts `SymbolInfo`,
NavigationTracker `TrackedSymbol`). -/
structure TrackedSymbol where
  name : String
  line : Nat
  filePath : String
deriving DecidableEq, Repr, Inhabited

/-- A 2-D position `{x, y}`. -/
structure Pos where
  x : ℚ
  y : ℚ
deriving DecidableEq, Repr, Inhabited

/-- Group kind: `'plugin' | 'path' | 'dependency'` (types.ts `GroupNode.type`). -/
inductive GroupType where
  | plugin
  | path
  | dependency
deriving DecidableEq, Repr, Inhabited

instance : BEq GroupType := ⟨fun a b => decide (a = b)⟩

theorem GroupType.beq_iff_eq {a b : GroupType} : (a == b) = true ↔ a = b := by
  simp [BEq.beq]

/-- types.ts `FileNode`. -/
structure FileNode where
  id : String
  filePath : String
  fileName : String
  relativePath : String
  pluginName : Option String
  groupId : Option String
  position : Pos
  symbols : Option (List TrackedSymbol)
  sourceSymbols : Option (List TrackedSymbol)
deriving DecidableEq, Repr, Inhabited

/-- types.ts `NavigationEdge`; `edgeType` is `some "navigation"`,
`some "dependency"` or `none` (absent). -/
structure NavigationEdge where
  id : String
  source : String
  target : String
  sourceHandle : Option String
  targetHandle : Option String
  edgeType : Option String
deriving DecidableEq, Repr, Inhabited

/-- types.ts `GroupNode`. -/
structure GroupNode where
  id : String
  label : String
  type : GroupType
  parentId : Option String
  position : Pos
  width : ℚ
  height : ℚ
  requiredPlugins : Option (List String)
  pluginPath : Option String
deriving DecidableEq, Repr, Inhabited

/-- types.ts `GraphState` (without the display-only `viewMode` field, which no
state-store operation reads or writes). -/
structure GraphState where
  nodes : List FileNode
  edges : List NavigationEdge
  groups : List GroupNode
deriving DecidableEq, Repr, Inhabited

/-- The state a fresh `StateManager` starts from when nothing was persisted. -/
def emptyState : GraphState := { nodes := [], edges := [], groups := [] }

/-- StateManager.addNode: push the node unless a node with the same id exists. -/
def addNode (s : GraphState) (node : FileNode) : GraphState :=
  if s.nodes.any (fun n => n.id == node.id) then s
  else { s with nodes := s.nodes ++ [node] }

/-- StateManager.addEdge: push the edge unless an edge with the same id exists. -/
def addEdge (s : GraphState) (edge : NavigationEdge) : GraphState :=
  if s.edges.any (fun e => e.id == edge.id) then s
  else { s with edges := s.edges ++ [edge] }

/-- StateManager.deleteNode: remove the node and all edges connected to it. -/
def deleteNode (s : GraphState) (nodeId : String) : GraphState :=
  { s with
    nodes := s.nodes.filter (fun n => n.id != nodeId),
    edges := s.edges.filter (fun e => e.source != nodeId && e.target != nodeId) }

/-- StateManager.addGroup: push the group unless a group with the same id exists. -/
def addGroup (s : GraphState) (group : GroupNode) : GraphState :=
  if s.groups.any (fun g => g.id == group.id) then s
  else { s with groups := s.groups ++ [group] }

/-- Replace the first list entry whose id matches (JS `findIndex` + index
assignment in StateManager.updateGroup). -/
def replaceFirstGroup : List GroupNode → GroupNode → List GroupNode
  | [], _ => []
  | g :: gs, group =>
    if g.id == group.id then group :: gs else g :: replaceFirstGroup gs group

/-- StateManager.updateGroup: overwrite the first group with a matching id,
no-op when absent. -/
def updateGroup (s : GraphState) (group : GroupNode) : GraphState :=
  if s.groups.any (fun g => g.id == group.id) then
    { s with groups := replaceFirstGroup s.groups group }
  else s

/-- StateManager.getGroup. -/
def getGroup (s : GraphState) (groupId : String) : Option GroupNode :=
  s.groups.find? (fun g => g.id == groupId)

/-- StateManager.deleteGroup: remove the group only; edges are not touched. -/
def deleteGroup (s : GraphState) (groupId : String) : GraphState :=
  { s with groups := s.groups.filter (fun g => g.id != groupId) }

/-- StateManager.getNodesInGroup. -/
def getNodesInGroup (s : GraphState) (groupId : String) : List FileNode :=
  s.nodes.filter (fun n => n.groupId == some groupId)

/-- Replace the first node position with a matching id (StateManager.updateNodePosition). -/
def replaceFirstNodePos : List FileNode → String → Pos → List FileNode
  | [], _, _ => []
  | n :: ns, nodeId, position =>
    if n.id == nodeId then { n with position := position } :: ns
    else n :: replaceFirstNodePos ns nodeId position

/-- StateManager.updateNodePosition. -/
def updateNodePosition (s : GraphState) (nodeId : String) (position : Pos) : GraphState :=
  { s with nodes := replaceFirstNodePos s.nodes nodeId position }

/-- StateManager.clearState resets to the empty state. -/
def clearState : GraphState := emptyState

/-- Modelled from the spec: `StateManager.addSymbolToNode` is called by the
tracker but its body is not among the available sources. Per the spec,
destination symbols are append-only and de-duplicated by `(name, line)`. -/
def addSymbolToNode (s : GraphState) (nodeId : String) (symbol : TrackedSymbol) : GraphState :=
  { s with nodes := s.nodes.map (fun n =>
      if n.id == nodeId then
        let old := n.symbols.getD []
        if old.any (fun q => q.name == symbol.name && q.line == symbol.line) then n
        else { n with symbols := some (old ++ [symbol]) }
      else n) }

/-- Modelled from the spec: `StateManager.addSourceSymbolToNode` is called by
the tracker but its body is not among the available sources. Per the spec,
source symbols are append-only and de-duplicated by `(name, line)`. -/
def addSourceSymbolToNode (s : GraphState) (nodeId : String) (symbol : TrackedSymbol) : GraphState :=
  { s with nodes := s.nodes.map (fun n =>
      if n.id == nodeId then
        let old := n.sourceSymbols.getD []
        if old.any (fun q => q.name == symbol.name && q.line == symbol.line) then n
        else { n with sourceSymbols := some (old ++ [symbol]) }
      else n) }

/-! NavigationTracker layout constants. -/

/-- NavigationTracker `GROUP_PADDING = 4`. -/
def GROUP_PADDING : ℚ := 4

/-- NavigationTracker `GROUP_HEADER_HEIGHT = 50`. -/
def GROUP_HEADER_HEIGHT : ℚ := 50

/-- NavigationTracker `NODE_WIDTH = 260`. -/
def NODE_WIDTH : ℚ := 260

/-- NavigationTracker `NODE_HEIGHT = 80`. -/
def NODE_HEIGHT : ℚ := 80

/-- NavigationTracker `NODE_SPACING = 4`. -/
def NODE_SPACING : ℚ := 4

/-- Wrap an integer into the signed 32-bit range (JS `ToInt32`, applied by
`hash & hash` in `_generateNodeId`). -/
def toInt32 (n : Int) : Int := (n + 2 ^ 31) % 2 ^ 32 - 2 ^ 31

/-- One step of the `_generateNodeId` hash loop:
`hash = (hash << 5) - hash + charCode`, coerced back to Int32. -/
def hashStep (hash : Int) (c : Nat) : Int :=
  toInt32 (toInt32 (hash * 32) - hash + c)

/-- NavigationTracker `_generateNodeId`: fold the hash over the path's
characters and render `node-` plus the absolute value in lowercase hex. -/
def generateNodeId (filePath : String) : String :=
  let hash := filePath.data.foldl (fun h c => hashStep h c.toNat) 0
  "node-" ++ String.mk (Nat.toDigits 16 hash.natAbs)

/-- `pat.isPrefixOf l` for character lists, written out so kernel evaluation
stays cheap. -/
def charsStartWith : List Char → List Char → Bool
  | [], _ => true
  | _ :: _, [] => false
  | p :: ps, c :: cs => p == c && charsStartWith ps cs

/-- Remove the first occurrence of `pat` from `l`
(JS `String.prototype.replace` with an empty replacement). -/
def removeFirstOcc : List Char → List Char → List Char
  | [], _ => []
  | c :: rest, pat =>
    if charsStartWith pat (c :: rest) then (c :: rest).drop pat.length
    else c :: removeFirstOcc rest pat

/-- `s.replace(pat, '')` for the first occurrence only, as JS does for string
patterns (used for `groupId.replace('group-', '')`). -/
def replaceFirst (s pat : String) : String :=
  String.mk (removeFirstOcc s.data pat.data)

/-- `str.startsWith(pat)` on strings. -/
def strStartsWith (s pat : String) : Bool :=
  charsStartWith pat.data s.data

/-- NavigationTracker `_updateGroupSize`: recompute a group's size from its
member-file count; an empty group collapses to the compact 200×50, a non-empty
group keeps its width and gets height
`GROUP_HEADER_HEIGHT + count*(NODE_HEIGHT + NODE_SPACING) + GROUP_PADDING`. -/
def updateGroupSize (s : GraphState) (groupId : String) : GraphState :=
  match s.groups.find? (fun g => g.id == groupId) with
  | none => s
  | some group =>
    let nodesInGroup := s.nodes.filter (fun n => n.groupId == some groupId)
    if nodesInGroup.length == 0 then
      if (50 : ℚ) != group.height || (200 : ℚ) != group.width then
        updateGroup s { group with width := 200, height := 50 }
      else s
    else
      let requiredHeight :=
        GROUP_HEADER_HEIGHT + (nodesInGroup.length : ℚ) * (NODE_HEIGHT + NODE_SPACING) +
          GROUP_PADDING
      let requiredWidth := group.width
      if requiredHeight != group.height || requiredWidth != group.width then
        updateGroup s { group with width := requiredWidth, height := requiredHeight }
      else s

/-- NavigationTracker local plugin info (`LocalPluginInfo`): `id` is the
package id, `runtimeId` the runtime id (JS falsy when empty). -/
structure LocalPluginInfo where
  id : String
  runtimeId : String
  requiredPlugins : Option (List String)
  pluginDir : String
deriving DecidableEq, Repr, Inhabited

/-- NavigationTracker `_calculateNodePosition`: stack files inside their group
below the header, or stack ungrouped files below the lowest group edge. -/
def calculateNodePosition (existingState : GraphState) (groupId : Option String) : Pos :=
  match groupId with
  | some gid =>
    let nodesInGroup := existingState.nodes.filter (fun n => n.groupId == some gid)
    let nodeIndex : ℚ := nodesInGroup.length
    { x := GROUP_PADDING,
      y := GROUP_HEADER_HEIGHT + nodeIndex * (NODE_HEIGHT + NODE_SPACING) + GROUP_PADDING }
  | none =>
    let maxGroupBottom := existingState.groups.foldl
      (fun mx g => max mx (g.position.y + g.height)) 0
    let ungroupedNodes := existingState.nodes.filter (fun n => n.groupId == none)
    let nodeIndex : ℚ := ungroupedNodes.length
    { x := 20, y := maxGroupBottom + 20 + nodeIndex * (NODE_HEIGHT + NODE_SPACING) }

/-- Grid cell position for the `index`-th dependency group of a plugin with
`numDeps` declared dependencies (`_createDependencyGroups` geometry: 5
columns, 200×50 boxes, 20/15 gaps, centered under the 40-pixel-gapped main
group, last row horizontally centered). -/
def depGridPosition (mainGroupPosition : Pos) (numDeps index : Nat) : Pos :=
  let mainGroupWidth : ℚ := NODE_WIDTH + GROUP_PADDING * 2
  let mainGroupHeight : ℚ := GROUP_HEADER_HEIGHT + NODE_HEIGHT + GROUP_PADDING * 2
  let DEP_WIDTH : ℚ := 200
  let DEP_HEIGHT : ℚ := 50
  let GRID_GAP_X : ℚ := 20
  let GRID_GAP_Y : ℚ := 15
  let GRID_COLUMNS : Nat := 5
  let GRID_TOP_MARGIN : ℚ := 40
  let numRows := (numDeps + GRID_COLUMNS - 1) / GRID_COLUMNS
  let actualColumns := min numDeps GRID_COLUMNS
  let gridWidth : ℚ := actualColumns * DEP_WIDTH + ((actualColumns : ℚ) - 1) * GRID_GAP_X
  let gridStartX := mainGroupPosition.x + (mainGroupWidth - gridWidth) / 2
  let gridStartY := mainGroupPosition.y + mainGroupHeight + GRID_TOP_MARGIN
  let row := index / GRID_COLUMNS
  let col := index % GRID_COLUMNS
  let itemsInThisRow :=
    if row == numRows - 1 then numDeps - row * GRID_COLUMNS else GRID_COLUMNS
  let rowOffset : ℚ :=
    if row == numRows - 1 then
      (((GRID_COLUMNS : ℚ) - itemsInThisRow) * (DEP_WIDTH + GRID_GAP_X)) / 2
    else 0
  { x := gridStartX + col * (DEP_WIDTH + GRID_GAP_X) + rowOffset,
    y := gridStartY + row * (DEP_HEIGHT + GRID_GAP_Y) }

/-- One iteration of the `_createDependencyGroups` loop for the dependency at
`p = (index, depPluginId)`: add the compact dependency group when absent, then
add the `dep-` edge when absent. -/
def createDependencyGroupStep (getDisplayName : String → String)
    (mainGroupPosition : Pos) (mainGroupId : String) (numDeps : Nat)
    (acc : GraphState) (p : Nat × String) : GraphState :=
  let index := p.1
  let depPluginId := p.2
  let depGroupId := "group-" ++ depPluginId
  let depExists := acc.groups.any (fun g => g.id == depGroupId)
  let acc1 :=
    if depExists then acc
    else
      addGroup acc
        { id := depGroupId, label := getDisplayName depPluginId,
          type := GroupType.dependency, parentId := none,
          position := depGridPosition mainGroupPosition numDeps index,
          width := 200, height := 50,
          requiredPlugins := none, pluginPath := none }
  let depEdgeId := "dep-" ++ depGroupId ++ "-" ++ mainGroupId
  let edgeExists := acc1.edges.any (fun e => e.id == depEdgeId)
  if edgeExists then acc1
  else
    addEdge acc1
      { id := depEdgeId, source := depGroupId, target := mainGroupId,
        sourceHandle := some "top-source", targetHandle := some "bottom-target",
        edgeType := some "dependency" }

/-- NavigationTracker `_createDependencyGroups`: for each required plugin,
place (grid layout) and add a compact dependency group when absent, then add
the `dep-` edge from the dependency's top to the main group's bottom when
absent. `getDisplayName` stands for `pluginCache.getDisplayName`. -/
def createDependencyGroups (getDisplayName : String → String) (s : GraphState)
    (requiredPlugins : List String) (mainGroupPosition : Pos) (mainGroupId : String) :
    GraphState :=
  requiredPlugins.enum.foldl
    (createDependencyGroupStep getDisplayName mainGroupPosition mainGroupId
      requiredPlugins.length)
    s

/-- NavigationTracker `_ensureGroup`: return the owning group's id (if any),
promoting an existing dependency group to a plugin group in place, or creating
a brand new plugin group stacked below the last plugin group, in both cases
topping up dependency groups for the plugin's declared dependencies. -/
def ensureGroup (getDisplayName : String → String) (pluginPath : String)
    (pluginInfo : Option LocalPluginInfo) (s : GraphState) :
    Option String × GraphState :=
  match pluginInfo with
  | none => (none, s)
  | some pi =>
    if pi.runtimeId == "" then (none, s)
    else
      let runtimeId := pi.runtimeId
      let displayName := pi.id
      let groupId := "group-" ++ runtimeId
      match s.groups.find? (fun g => g.id == groupId) with
      | some existingGroup =>
        if existingGroup.type == GroupType.dependency then
          let mainGroupWidth : ℚ := NODE_WIDTH + GROUP_PADDING * 2
          let mainGroupHeight : ℚ := GROUP_HEADER_HEIGHT + NODE_HEIGHT + GROUP_PADDING * 2
          let upgradedGroup : GroupNode :=
            { existingGroup with
              type := GroupType.plugin, width := mainGroupWidth,
              height := mainGroupHeight,
              requiredPlugins := some (pi.requiredPlugins.getD []),
              pluginPath := some pluginPath }
          let s1 := updateGroup s upgradedGroup
          let s2 := createDependencyGroups getDisplayName s1 (pi.requiredPlugins.getD [])
            existingGroup.position groupId
          (some groupId, s2)
        else (some groupId, s)
      | none =>
        let requiredPlugins := pi.requiredPlugins.getD []
        let mainGroupWidth : ℚ := NODE_WIDTH + GROUP_PADDING * 2
        let mainGroupHeight : ℚ := GROUP_HEADER_HEIGHT + NODE_HEIGHT + GROUP_PADDING * 2
        let pluginGroups := s.groups.filter (fun g => g.type == GroupType.plugin)
        let GROUP_GAP : ℚ := 40
        let mainGroupPos : Pos :=
          match pluginGroups.getLast? with
          | some lastGroup =>
            { x := lastGroup.position.x,
              y := lastGroup.position.y + lastGroup.height + GROUP_GAP }
          | none => { x := 50, y := 50 }
        let newGroup : GroupNode :=
          { id := groupId, label := displayName, type := GroupType.plugin,
            parentId := none, position := mainGroupPos,
            width := mainGroupWidth, height := mainGroupHeight,
            requiredPlugins := some requiredPlugins, pluginPath := some pluginPath }
        let s1 := addGroup s newGroup
        let s2 := createDependencyGroups getDisplayName s1 requiredPlugins
          mainGroupPos groupId
        (some groupId, s2)

/-- NavigationTracker mutable fields relevant to the event handlers:
`_previousFilePath`, `_lastTrackedSymbol`, `_lastContainingSymbol`,
`_lastSymbolTimestamp` (milliseconds). -/
structure TrackerState where
  previousFilePath : Option String
  lastTrackedSymbol : Option TrackedSymbol
  lastContainingSymbol : Option TrackedSymbol
  lastSymbolTimestamp : Int
deriving DecidableEq, Repr, Inhabited

/-- A fresh tracker: no previous file, no pending symbol, timestamp 0. -/
def initialTracker : TrackerState :=
  { previousFilePath := none, lastTrackedSymbol := none,
    lastContainingSymbol := none, lastSymbolTimestamp := 0 }

/-- `_onEditorChange`'s freshness test: a symbol was tracked, a different
previous file exists, and fewer than 500 ms have elapsed. -/
def hasRecentSymbol (tr : TrackerState) (filePath : String) (now : Int) : Bool :=
  tr.lastTrackedSymbol.isSome && tr.previousFilePath.isSome &&
  tr.previousFilePath != some filePath && decide (now - tr.lastSymbolTimestamp < 500)

/-- `_onSelectionChange` when the cursor rests on a bare identifier: record the
pending symbol with a timestamp and the (asynchronously resolved) enclosing
declaration. -/
def onSelectionTrack (tr : TrackerState) (word : TrackedSymbol) (now : Int)
    (containing : Option TrackedSymbol) : TrackerState :=
  { tr with lastTrackedSymbol := some word, lastSymbolTimestamp := now,
            lastContainingSymbol := containing }

/-- First phase of `_onEditorChange`: create the node (ensuring its group and
sizing it) when absent, otherwise append a freshly navigated destination
symbol to the existing node. -/
def editorChangeNodePhase (getDisplayName : String → String)
    (navigatedSymbol : Option TrackedSymbol) (s : GraphState)
    (filePath fileName relativePath pluginPath : String)
    (pluginInfo : Option LocalPluginInfo) : GraphState :=
  let nodeId := generateNodeId filePath
  let existingNode := s.nodes.find? (fun n => n.id == nodeId)
  match existingNode with
  | none =>
    let pluginName := pluginInfo.map (fun pi => pi.id)
    let egRes := ensureGroup getDisplayName pluginPath pluginInfo s
    let finalGroupId := egRes.1
    let sA := egRes.2
    let position := calculateNodePosition s finalGroupId
    let newNode : FileNode :=
      { id := nodeId, filePath := filePath, fileName := fileName,
        relativePath := relativePath, pluginName := pluginName,
        groupId := finalGroupId, position := position,
        symbols := navigatedSymbol.map (fun sym => [sym]),
        sourceSymbols := none }
    let sB := addNode sA newNode
    match finalGroupId with
    | some gid => updateGroupSize sB gid
    | none => sB
  | some node =>
    match navigatedSymbol with
    | none => s
    | some sym =>
      let existingSymbols := node.symbols.getD []
      if existingSymbols.any (fun q => q.name == sym.name && q.line == sym.line) then s
      else addSymbolToNode s nodeId sym

/-- Second phase of `_onEditorChange`: when a fresh symbol was used, attach the
enclosing-declaration symbol to the previous file's node (if that node exists). -/
def editorChangeSourcePhase (tr : TrackerState) (recent : Bool) (s : GraphState) :
    GraphState :=
  if recent then
    match tr.lastContainingSymbol, tr.previousFilePath with
    | some cs, some prevPath =>
      let sourceNodeId := generateNodeId prevPath
      match s.nodes.find? (fun n => n.id == sourceNodeId) with
      | none => s
      | some sourceNode =>
        let existingSourceSymbols := sourceNode.sourceSymbols.getD []
        if existingSourceSymbols.any (fun q => q.name == cs.name && q.line == cs.line) then s
        else addSourceSymbolToNode s sourceNodeId cs
    | _, _ => s
  else s

/-- Third phase of `_onEditorChange`: create the navigation edge
previous→current unless an edge already exists in either direction. -/
def editorChangeEdgePhase (tr : TrackerState) (s : GraphState) (filePath : String) :
    GraphState :=
  match tr.previousFilePath with
  | none => s
  | some prevPath =>
    if prevPath == filePath then s
    else
      let sourceId := generateNodeId prevPath
      let targetId := generateNodeId filePath
      let edgeId := sourceId ++ "-" ++ targetId
      let reverseEdgeId := targetId ++ "-" ++ sourceId
      let edgeExists := s.edges.any (fun e => e.id == edgeId || e.id == reverseEdgeId)
      if edgeExists then s
      else
        addEdge s
          { id := edgeId, source := sourceId, target := targetId,
            sourceHandle := none, targetHandle := none, edgeType := none }

/-- NavigationTracker `_onEditorChange` for a file-scheme editor: node
creation/symbol annotation, source-symbol annotation, pending-symbol clearing,
navigation-edge creation, and recording the new previous file. -/
def onEditorChange (getDisplayName : String → String) (tr : TrackerState)
    (s : GraphState) (filePath fileName relativePath pluginPath : String)
    (pluginInfo : Option LocalPluginInfo) (now : Int) :
    TrackerState × GraphState :=
  let recent := hasRecentSymbol tr filePath now
  let navigatedSymbol := if recent then tr.lastTrackedSymbol else none
  let s1 := editorChangeNodePhase getDisplayName navigatedSymbol s
    filePath fileName relativePath pluginPath pluginInfo
  let s2 := editorChangeSourcePhase tr recent s1
  let tr1 :=
    if recent then { tr with lastTrackedSymbol := none, lastContainingSymbol := none }
    else tr
  let s3 := editorChangeEdgePhase tr s2 filePath
  ({ tr1 with previousFilePath := some filePath }, s3)

/-- `_cleanupOrphanedDependencies` body: all reads go against the snapshot
`currentState` taken at entry (deletions during the loop reassign the state's
`groups` array, so the snapshot does not observe them), while deletions
accumulate in the live state. -/
def cleanupGo (currentState : GraphState) (acc : GraphState) :
    List String → GraphState
  | [] => acc
  | depPluginId :: rest =>
    let depGroupId := "group-" ++ depPluginId
    let acc1 :=
      match currentState.groups.find? (fun g => g.id == depGroupId) with
      | none => acc
      | some _ =>
        let nodesInDepGroup :=
          currentState.nodes.filter (fun n => n.groupId == some depGroupId)
        if nodesInDepGroup.length > 0 then acc
        else
          let stillRequired := currentState.groups.any (fun g =>
            g.type == GroupType.plugin && g.id != depGroupId &&
            (g.requiredPlugins.getD []).contains depPluginId)
          if stillRequired then acc
          else deleteGroup acc depGroupId
    cleanupGo currentState acc1 rest

/-- NavigationTracker / PathfinderViewProvider `_cleanupOrphanedDependencies`:
one-level orphan cleanup of the given former required plugins. -/
def cleanupOrphanedDependencies (s : GraphState) (dependencyPluginIds : List String) :
    GraphState :=
  cleanupGo s s dependencyPluginIds

/-- The exact condition under which one `_cleanupOrphanedDependencies`
iteration deletes the group `group-{depPluginId}`, evaluated against the
snapshot `cs`: the group exists, owns no file node, and no other plugin group
still lists `depPluginId` among its requiredPlugins. -/
def orphanDeletable (cs : GraphState) (depPluginId : String) : Bool :=
  if (cs.groups.find? (fun g => g.id == "group-" ++ depPluginId)).isSome then
    if (cs.nodes.filter (fun n => n.groupId == some ("group-" ++ depPluginId))).length > 0
    then false
    else !(cs.groups.any (fun g =>
      g.type == GroupType.plugin && g.id != "group-" ++ depPluginId &&
      (g.requiredPlugins.getD []).contains depPluginId))
  else false

/-- The removed/demoted group's former requiredPlugins are cleaned up only
when the field is present (the JS `if (groupToRemove.requiredPlugins)` guard). -/
def cleanupFormerRequired (s2 : GraphState) (requiredPlugins : Option (List String)) :
    GraphState :=
  match requiredPlugins with
  | some reqs => cleanupOrphanedDependencies s2 reqs
  | none => s2

/-- The demote-or-delete decision for a group that lost its last file: demote
it to a compact dependency group when some other plugin group still requires
its runtime id, delete it otherwise; either way clean up its former
requiredPlugins one level. -/
def demoteOrDelete (s1 : GraphState) (groupId : String) (groupToRemove : GroupNode) :
    GraphState :=
  let runtimeId := replaceFirst groupId "group-"
  let stillRequiredBy := s1.groups.find? (fun g =>
    g.type == GroupType.plugin && g.id != groupId &&
    (g.requiredPlugins.getD []).contains runtimeId)
  if stillRequiredBy.isSome then
    let convertedGroup : GroupNode :=
      { groupToRemove with
        type := GroupType.dependency, width := 100, height := 50,
        requiredPlugins := none }
    cleanupFormerRequired (updateGroup s1 convertedGroup) groupToRemove.requiredPlugins
  else
    cleanupFormerRequired (deleteGroup s1 groupId) groupToRemove.requiredPlugins

/-- Shared demotion/deletion/orphan-cleanup rule run when a group lost its last
file (used by `_onDocumentClose` and the webview `deleteNode` handler, whose
bodies are identical here). -/
def emptyGroupCleanup (s1 : GraphState) (groupId : String) : GraphState :=
  if (getNodesInGroup s1 groupId).length == 0 then
    match getGroup s1 groupId with
    | none => s1
    | some groupToRemove => demoteOrDelete s1 groupId groupToRemove
  else s1

/-- NavigationTracker `_onDocumentClose`: delete the file's node (cascading
edge removal), then if its group lost its last file run demotion / deletion /
orphan cleanup, else resize the group; finally clear `previousFilePath` when it
pointed at the closed file. -/
def onDocumentClose (previousFilePath : Option String) (s : GraphState)
    (filePath : String) : Option String × GraphState :=
  let nodeId := generateNodeId filePath
  match s.nodes.find? (fun n => n.id == nodeId) with
  | none => (previousFilePath, s)
  | some node =>
    let s1 := deleteNode s nodeId
    let s2 :=
      match node.groupId with
      | none => s1
      | some groupId =>
        if (getNodesInGroup s1 groupId).length == 0 then
          emptyGroupCleanup s1 groupId
        else updateGroupSize s1 groupId
    let prev' := if previousFilePath == some filePath then none else previousFilePath
    (prev', s2)

/-- NavigationTracker `_onTabsChange` for one closed text tab: delete the
file's node (cascading edge removal) and resize its group; the group is only
resized (shrinking to compact when empty), never demoted or deleted. -/
def onTabClose (s : GraphState) (filePath : String) : GraphState :=
  let nodeId := generateNodeId filePath
  match s.nodes.find? (fun n => n.id == nodeId) with
  | none => s
  | some node =>
    let s1 := deleteNode s nodeId
    match node.groupId with
    | some groupId => updateGroupSize s1 groupId
    | none => s1

/-- PathfinderViewProvider `deleteNode` message handler: delete the node, then
if its group lost its last file run the same demotion/deletion/orphan-cleanup
rule (no resize happens when nodes remain). -/
def webviewDeleteNode (s : GraphState) (nodeId : String) : GraphState :=
  match s.nodes.find? (fun n => n.id == nodeId) with
  | none => deleteNode s nodeId
  | some node =>
    let s1 := deleteNode s nodeId
    match node.groupId with
    | none => s1
    | some groupId =>
      if (getNodesInGroup s1 groupId).length == 0 then
        emptyGroupCleanup s1 groupId
      else s1

/-- NavigationTracker `handleModeChange`: in plugin mode top up missing
dependency groups for every plugin group; in journey mode delete every empty
dependency group; other modes are no-ops. -/
def handleModeChange (getDisplayName : String → String) (s : GraphState)
    (newMode : String) : GraphState :=
  if newMode == "plugin" then
    let pluginGroups := s.groups.filter (fun g => g.type == GroupType.plugin)
    pluginGroups.foldl
      (fun acc pluginGroup =>
        let requiredPlugins := pluginGroup.requiredPlugins.getD []
        if requiredPlugins.length > 0 then
          let missingDeps := requiredPlugins.filter (fun dep =>
            !(acc.groups.any (fun g => g.id == "group-" ++ dep)))
          if missingDeps.length > 0 then
            createDependencyGroups getDisplayName acc missingDeps
              pluginGroup.position pluginGroup.id
          else acc
        else acc)
      s
  else if newMode == "journey" then
    let emptyDependencyGroups := s.groups.filter (fun g =>
      g.type == GroupType.dependency &&
      (s.nodes.filter (fun n => n.groupId == some g.id)).length == 0)
    emptyDependencyGroups.foldl (fun acc g => deleteGroup acc g.id) s
  else s

/-- View mode (types.ts `ViewMode`). -/
inductive ViewMode where
  | journey
  | plugin
  | complete
  | threeD
deriving DecidableEq, Repr, Inhabited

/-- PathfinderGraph.tsx `filteredGroups`: journey keeps only plugin groups;
complete unions the stored groups (with cached complete-layout positions when
available) with the synthesized groups not already stored; every other mode
shows the stored groups. `cachedPositions` models `completePositionsRef`. -/
def filteredGroups (viewMode : ViewMode) (inputGroups completeGroups : List GroupNode)
    (cachedPositions : List (String × Pos)) : List GroupNode :=
  match viewMode with
  | ViewMode.journey => inputGroups.filter (fun g => g.type == GroupType.plugin)
  | ViewMode.complete =>
    let inputGroupIds := inputGroups.map (fun g => g.id)
    let inputGroupsWithPreservedPositions := inputGroups.map (fun group =>
      match cachedPositions.find? (fun p => p.1 == group.id) with
      | some p => { group with position := p.2 }
      | none => group)
    let remainingCompleteGroups :=
      completeGroups.filter (fun g => !(inputGroupIds.contains g.id))
    inputGroupsWithPreservedPositions ++ remainingCompleteGroups
  | _ => inputGroups

/-- PathfinderGraph.tsx `hasValidEndpoints`: both endpoints are among the
valid node/group ids. -/
def hasValidEndpoints (validNodeIds : List String) (edge : NavigationEdge) : Bool :=
  validNodeIds.contains edge.source && validNodeIds.contains edge.target

/-- PathfinderGraph.tsx dependency-edge test used by the journey filter. -/
def isDependencyEdge (edge : NavigationEdge) : Bool :=
  edge.edgeType == some "dependency" || strStartsWith edge.id "dep-" ||
  (strStartsWith edge.source "group-" && strStartsWith edge.target "group-")

/-- Complete-mode edge pass: keep an edge when its id is unseen and its
endpoints are valid, remembering seen ids (PathfinderGraph.tsx `uniqueEdges`). -/
def dedupValidEdges (validNodeIds : List String) :
    List NavigationEdge → List String → List NavigationEdge
  | [], _ => []
  | edge :: rest, seenIds =>
    if !(seenIds.contains edge.id) && hasValidEndpoints validNodeIds edge then
      edge :: dedupValidEdges validNodeIds rest (seenIds ++ [edge.id])
    else dedupValidEdges validNodeIds rest seenIds

/-- PathfinderGraph.tsx `filteredEdges`: the valid endpoint set is the file
nodes plus the already-filtered groups; journey drops dependency edges,
complete merges stored and synthesized edges de-duplicated by id, every other
mode keeps stored edges — all restricted to valid endpoints. -/
def filteredEdges (viewMode : ViewMode) (inputNodes : List FileNode)
    (inputEdges completeEdges : List NavigationEdge)
    (fGroups : List GroupNode) : List NavigationEdge :=
  let validNodeIds :=
    inputNodes.map (fun n => n.id) ++ fGroups.map (fun g => g.id)
  match viewMode with
  | ViewMode.journey =>
    inputEdges.filter (fun edge =>
      !(isDependencyEdge edge) && hasValidEndpoints validNodeIds edge)
  | ViewMode.complete =>
    dedupValidEdges validNodeIds (inputEdges ++ completeEdges) []
  | _ => inputEdges.filter (fun edge => hasValidEndpoints validNodeIds edge)

/-- resolveCollisions.ts `NodeRect`. -/
structure NodeRect where
  id : String
  x : ℚ
  y : ℚ
  width : ℚ
  height : ℚ
  parentId : Option String
deriving DecidableEq, Repr, Inhabited

/-- resolveCollisions.ts `getOverlap`: overlap (including margin) along each
axis, or `(0, 0)` when either axis does not overlap. -/
def getOverlap (rectA rectB : NodeRect) (margin : ℚ) : ℚ × ℚ :=
  let overlapX :=
    min (rectA.x + rectA.width + margin - rectB.x)
        (rectB.x + rectB.width + margin - rectA.x)
  let overlapY :=
    min (rectA.y + rectA.height + margin - rectB.y)
        (rectB.y + rectB.height + margin - rectA.y)
  if overlapX ≤ 0 ∨ overlapY ≤ 0 then (0, 0) else (overlapX, overlapY)

/-- One colliding-pair resolution step (resolveCollisions.ts inner loop body):
when the overlap exceeds the threshold on either axis, push both rectangles
apart by `(overlap + margin) / 2` each along the axis of smaller overlap, away
from the other rectangle's center. Returns the updated pair and whether a
collision was handled. -/
def resolvePair (rectA rectB : NodeRect) (overlapThreshold margin : ℚ) :
    (NodeRect × NodeRect) × Bool :=
  let ov := getOverlap rectA rectB margin
  if ov.1 > overlapThreshold ∨ ov.2 > overlapThreshold then
    let centerAX := rectA.x + rectA.width / 2
    let centerAY := rectA.y + rectA.height / 2
    let centerBX := rectB.x + rectB.width / 2
    let centerBY := rectB.y + rectB.height / 2
    let dx := centerBX - centerAX
    let dy := centerBY - centerAY
    if |ov.1| < |ov.2| then
      let pushX := (ov.1 + margin) / 2
      if dx ≥ 0 then
        (({ rectA with x := rectA.x - pushX }, { rectB with x := rectB.x + pushX }), true)
      else
        (({ rectA with x := rectA.x + pushX }, { rectB with x := rectB.x - pushX }), true)
    else
      let pushY := (ov.2 + margin) / 2
      if dy ≥ 0 then
        (({ rectA with y := rectA.y - pushY }, { rectB with y := rectB.y + pushY }), true)
      else
        (({ rectA with y := rectA.y + pushY }, { rectB with y := rectB.y - pushY }), true)
  else ((rectA, rectB), false)

/-- Read a rectangle at an index (JS array indexing inside the sweep). -/
def getRect (rects : List NodeRect) (i : Nat) : NodeRect :=
  rects.getD i default

/-- Apply `resolvePair` to indices `i < j`, writing both updates back. -/
def sweepAt (rects : List NodeRect) (i j : Nat) (overlapThreshold margin : ℚ) :
    List NodeRect × Bool :=
  let res := resolvePair (getRect rects i) (getRect rects j) overlapThreshold margin
  if res.2 then (((rects.set i res.1.1).set j res.1.2), true)
  else (rects, false)

/-- All index pairs `i < j` below `n`, in the nested-loop order of
resolveCollisions.ts. -/
def pairsBelow (n : Nat) : List (Nat × Nat) :=
  (List.range n).flatMap (fun i =>
    ((List.range n).filter (fun j => i < j)).map (fun j => (i, j)))

/-- One full pass over all pairs (`resolveNodeCollisions` while-loop body),
returning the updated rectangles and whether any collision was handled. -/
def sweep (rects : List NodeRect) (overlapThreshold margin : ℚ) :
    List NodeRect × Bool :=
  (pairsBelow rects.length).foldl
    (fun acc p =>
      let r := sweepAt acc.1 p.1 p.2 overlapThreshold margin
      (r.1, acc.2 || r.2))
    (rects, false)

/-- The `while (hasCollisions && iterations < maxIterations)` loop of
`resolveNodeCollisions`, with the remaining iteration budget as fuel. -/
def resolveLoop : Nat → List NodeRect → ℚ → ℚ → List NodeRect
  | 0, rects, _, _ => rects
  | fuel + 1, rects, overlapThreshold, margin =>
    let r := sweep rects overlapThreshold margin
    if r.2 then resolveLoop fuel r.1 overlapThreshold margin else r.1

/-- resolveCollisions.ts `resolveNodeCollisions`: iterate sweeps until no pair
exceeds the threshold or the iteration cap is hit. -/
def resolveNodeCollisions (rects : List NodeRect) (maxIterations : Nat)
    (overlapThreshold margin : ℚ) : List NodeRect :=
  resolveLoop maxIterations rects overlapThreshold margin

/-- Distinct values in first-appearance order (JS `Map` key insertion order for
the parent grouping). -/
def firstOccurrences : List String → List String → List String
  | [], _ => []
  | p :: ps, seen =>
    if seen.contains p then firstOccurrences ps seen
    else p :: firstOccurrences ps (seen ++ [p])

/-- The write-back step at the end of resolveCollisions.ts: look up a node's
resolved rectangle by id and take its position, keeping the node unchanged
when nothing moved (or no resolved rectangle carries its id). -/
def mapBack (resolved : List NodeRect) (node : NodeRect) : NodeRect :=
  match resolved.find? (fun r => r.id == node.id) with
  | some rect =>
    if rect.x != node.x || rect.y != node.y then
      { node with x := rect.x, y := rect.y }
    else node
  | none => node

/-- resolveCollisions.ts `resolveCollisions`: separate top-level rectangles
from children, resolve top-level rectangles against each other, resolve each
parent's children within that parent only, and write the updated positions
back onto the input rectangles by id. -/
def resolveCollisions (rects : List NodeRect) (maxIterations : Nat)
    (overlapThreshold margin : ℚ) : List NodeRect :=
  let topLevelNodes := rects.filter (fun n => n.parentId == none)
  let childNodes := rects.filter (fun n => !(n.parentId == none))
  let topLevelResolved := resolveNodeCollisions topLevelNodes maxIterations
    overlapThreshold margin
  let parents := firstOccurrences (childNodes.filterMap (fun n => n.parentId)) []
  let childrenResolved := parents.flatMap (fun p =>
    resolveNodeCollisions (childNodes.filter (fun n => n.parentId == some p))
      maxIterations overlapThreshold margin)
  let resolved := topLevelResolved ++ childrenResolved
  rects.map (mapBack resolved)

/-- forceLayoutWorker.ts layout input node `{id, width, height}`. -/
structure LayoutNode where
  id : String
  width : ℚ
  height : ℚ
deriving DecidableEq, Repr, Inhabited

/-- forceLayoutWorker.ts `LayoutOutput`. -/
structure LayoutOutput where
  positions : List (String × Pos)
  error : Option String
deriving DecidableEq, Repr, Inhabited

/-- forceLayoutWorker.ts fallback grid (the `catch` branch of `self.onmessage`):
node `index` goes to column `index % 8`, row `index / 8`, scaled by the node's
own width/height plus a 50-pixel gap and a 50-pixel origin offset. -/
def fallbackPositions (nodes : List LayoutNode) : List (String × Pos) :=
  nodes.enum.map (fun p =>
    let index := p.1
    let node := p.2
    (node.id,
      { x := (index % 8 : Nat) * (node.width + 50) + 50,
        y := (index / 8 : Nat) * (node.height + 50) + 50 }))

/-- forceLayoutWorker.ts `self.onmessage`: the d3-force simulation runs inside
a worker and is external to this embedding, so its outcome is an explicit
`Except` argument — `.ok` carries the computed positions, `.error` models a
thrown internal exception. The handler never re-throws: an exception is
replaced by the deterministic fallback grid plus an error note in the posted
message. -/
def workerOnMessage (nodes : List LayoutNode)
    (simResult : Except String (List (String × Pos))) : LayoutOutput :=
  match simResult with
  | Except.ok positions => { positions := positions, error := none }
  | Except.error msg => { positions := fallbackPositions nodes, error := some msg }

/-- Two edges connect the same unordered `{source, target}` pair. -/
def sameUnorderedPair (e₁ e₂ : NavigationEdge) : Prop :=
  (e₁.source = e₂.source ∧ e₁.target = e₂.target) ∨
  (e₁.source = e₂.target ∧ e₁.target = e₂.source)

/-- An edge that is not a dependency edge (navigation edges carry no
`edgeType`; the `'dependency'` tag marks group→group edges). -/
def NavigationEdge.isNav (e : NavigationEdge) : Prop :=
  e.edgeType ≠ some "dependency"

/-- Auxiliary invariant carried through reachability: edge ids are pairwise
distinct, every non-dependency edge's id is `source ++ "-" ++ target`, and
non-dependency edges are unique per unordered endpoint pair. -/
def NavInvariant (s : GraphState) : Prop :=
  (s.edges.map (fun e => e.id)).Nodup ∧
  (∀ e ∈ s.edges, e.isNav → e.id = e.source ++ "-" ++ e.target) ∧
  (∀ e₁ ∈ s.edges, ∀ e₂ ∈ s.edges, e₁.isNav → e₂.isNav →
    sameUnorderedPair e₁ e₂ → e₁ = e₂)

/-- One graph-state transition of the system: the tracker's editor-change,
document-close, tab-close and mode-change handlers, the webview's delete-node
handler, a node drag, or clearing the graph. -/
inductive Step : GraphState → GraphState → Prop where
  | editorChange (gdn : String → String) (tr : TrackerState) (s : GraphState)
      (filePath fileName relativePath pluginPath : String)
      (pluginInfo : Option LocalPluginInfo) (now : Int) :
      Step s (onEditorChange gdn tr s filePath fileName relativePath pluginPath
        pluginInfo now).2
  | documentClose (prev : Option String) (s : GraphState) (filePath : String) :
      Step s (onDocumentClose prev s filePath).2
  | tabClose (s : GraphState) (filePath : String) :
      Step s (onTabClose s filePath)
  | modeChange (gdn : String → String) (s : GraphState) (newMode : String) :
      Step s (handleModeChange gdn s newMode)
  | webviewDelete (s : GraphState) (nodeId : String) :
      Step s (webviewDeleteNode s nodeId)
  | nodePosition (s : GraphState) (nodeId : String) (p : Pos) :
      Step s (updateNodePosition s nodeId p)
  | clearGraph (s : GraphState) :
      Step s clearState

/-- States reachable from the fresh empty state by core transitions. -/
def ReachableState (s : GraphState) : Prop :=
  Relation.ReflTransGen Step emptyState s

/-! Shared helper lemmas. -/

theorem foldl_invariant {α β : Type} {P : α → Prop} (f : α → β → α) (l : List β)
    (init : α) (h0 : P init) (hstep : ∀ a b, b ∈ l → P a → P (f a b)) :
    P (l.foldl f init) := by
  induction l generalizing init with
  | nil => exact h0
  | cons b bs ih =>
    exact ih (f init b) (hstep init b (List.mem_cons_self b bs) h0)
      (fun a c hc ha => hstep a c (List.mem_cons_of_mem _ hc) ha)

theorem any_id_eq_false {l : List NavigationEdge} {i : String}
    (h : (l.any (fun e => e.id == i)) = false) : ∀ e ∈ l, e.id ≠ i := by
  intro e he hcontra
  have ht : (l.any (fun e => e.id == i)) = true :=
    List.any_eq_true.mpr ⟨e, he, by simp [hcontra]⟩
  rw [h] at ht
  exact Bool.false_ne_true ht

/-! C3: idempotent add. -/

/-- C3: for every graph state, adding a FileNode, NavigationEdge, or GroupNode
whose id already occurs in the corresponding set leaves the entire state
unchanged — no duplicate entry is inserted and no existing entry is modified. -/
theorem add_idempotent (s : GraphState) (node : FileNode) (edge : NavigationEdge)
    (group : GroupNode) :
    (node.id ∈ s.nodes.map (fun n => n.id) → addNode s node = s) ∧
    (edge.id ∈ s.edges.map (fun e => e.id) → addEdge s edge = s) ∧
    (group.id ∈ s.groups.map (fun g => g.id) → addGroup s group = s) := by
  refine ⟨fun h => ?_, fun h => ?_, fun h => ?_⟩
  · unfold addNode
    obtain ⟨n, hn, hid⟩ := List.mem_map.mp h
    rw [if_pos (List.any_eq_true.mpr ⟨n, hn, by simp [hid]⟩)]
  · unfold addEdge
    obtain ⟨e, he, hid⟩ := List.mem_map.mp h
    rw [if_pos (List.any_eq_true.mpr ⟨e, he, by simp [hid]⟩)]
  · unfold addGroup
    obtain ⟨g, hg, hid⟩ := List.mem_map.mp h
    rw [if_pos (List.any_eq_true.mpr ⟨g, hg, by simp [hid]⟩)]

/-- C3 witness: in a concrete one-node/one-edge/one-group state, re-adding
each entry with its existing id is a no-op. -/
theorem add_idempotent_witness :
    addNode ⟨[⟨"node-61", "a", "a", ".", none, none, ⟨0, 0⟩, none, none⟩],
             [⟨"e1", "node-61", "node-62", none, none, none⟩],
             [⟨"group-a", "a", GroupType.plugin, none, ⟨0, 0⟩, 268, 138, some [], none⟩]⟩
      ⟨"node-61", "a", "a", ".", none, none, ⟨0, 0⟩, none, none⟩ =
      ⟨[⟨"node-61", "a", "a", ".", none, none, ⟨0, 0⟩, none, none⟩],
       [⟨"e1", "node-61", "node-62", none, none, none⟩],
       [⟨"group-a", "a", GroupType.plugin, none, ⟨0, 0⟩, 268, 138, some [], none⟩]⟩ ∧
    addEdge ⟨[⟨"node-61", "a", "a", ".", none, none, ⟨0, 0⟩, none, none⟩],
             [⟨"e1", "node-61", "node-62", none, none, none⟩],
             [⟨"group-a", "a", GroupType.plugin, none, ⟨0, 0⟩, 268, 138, some [], none⟩]⟩
      ⟨"e1", "node-61", "node-62", none, none, none⟩ =
      ⟨[⟨"node-61", "a", "a", ".", none, none, ⟨0, 0⟩, none, none⟩],
       [⟨"e1", "node-61", "node-62", none, none, none⟩],
       [⟨"group-a", "a", GroupType.plugin, none, ⟨0, 0⟩, 268, 138, some [], none⟩]⟩ ∧
    addGroup ⟨[⟨"node-61", "a", "a", ".", none, none, ⟨0, 0⟩, none, none⟩],
              [⟨"e1", "node-61", "node-62", none, none, none⟩],
              [⟨"group-a", "a", GroupType.plugin, none, ⟨0, 0⟩, 268, 138, some [], none⟩]⟩
      ⟨"group-a", "a", GroupType.plugin, none, ⟨0, 0⟩, 268, 138, some [], none⟩ =
      ⟨[⟨"node-61", "a", "a", ".", none, none, ⟨0, 0⟩, none, none⟩],
       [⟨"e1", "node-61", "node-62", none, none, none⟩],
       [⟨"group-a", "a", GroupType.plugin, none, ⟨0, 0⟩, 268, 138, some [], none⟩]⟩ := by
  obtain ⟨h1, h2, h3⟩ := add_idempotent
    ⟨[⟨"node-61", "a", "a", ".", none, none, ⟨0, 0⟩, none, none⟩],
     [⟨"e1", "node-61", "node-62", none, none, none⟩],
     [⟨"group-a", "a", GroupType.plugin, none, ⟨0, 0⟩, 268, 138, some [], none⟩]⟩
    ⟨"node-61", "a", "a", ".", none, none, ⟨0, 0⟩, none, none⟩
    ⟨"e1", "node-61", "node-62", none, none, none⟩
    ⟨"group-a", "a", GroupType.plugin, none, ⟨0, 0⟩, 268, 138, some [], none⟩
  exact ⟨h1 (by decide), h2 (by decide), h3 (by decide)⟩

/-! C5: endpoint deletion versus stored edges. -/

/-- C5 counterexample: deleting group `group-b`, the source endpoint of the
stored dependency edge, leaves that edge in the stored edge set. -/
theorem deleteGroup_leaves_edge_counterexample :
    (deleteGroup
      ⟨[],
       [⟨"dep-group-b-group-a", "group-b", "group-a", some "top-source",
          some "bottom-target", some "dependency"⟩],
       [⟨"group-a", "a", GroupType.plugin, none, ⟨0, 0⟩, 268, 138, some ["b"], none⟩,
        ⟨"group-b", "b", GroupType.dependency, none, ⟨0, 300⟩, 200, 50, none, none⟩]⟩
      "group-b").groups.all (fun g => g.id != "group-b") = true ∧
    (deleteGroup
      ⟨[],
       [⟨"dep-group-b-group-a", "group-b", "group-a", some "top-source",
          some "bottom-target", some "dependency"⟩],
       [⟨"group-a", "a", GroupType.plugin, none, ⟨0, 0⟩, 268, 138, some ["b"], none⟩,
        ⟨"group-b", "b", GroupType.dependency, none, ⟨0, 300⟩, 200, 50, none, none⟩]⟩
      "group-b").edges.any (fun e => e.source == "group-b") = true := by
  exact ⟨by decide, by decide⟩

/-- C5 (amended): after `deleteNode id` no stored edge has `id` as an
endpoint; `deleteGroup groupId`, in contrast, removes only the group itself
and leaves the stored edge set entirely unchanged. -/
theorem delete_endpoint_edges (s : GraphState) (nodeId groupId : String) :
    (∀ e ∈ (deleteNode s nodeId).edges, e.source ≠ nodeId ∧ e.target ≠ nodeId) ∧
    (deleteGroup s groupId).edges = s.edges := by
  constructor
  · intro e he
    unfold deleteNode at he
    simp only [List.mem_filter] at he
    obtain ⟨-, hcond⟩ := he
    simp only [Bool.and_eq_true, bne_iff_ne, ne_eq] at hcond
    exact hcond
  · rfl

/-- C5 witness: in a concrete state, the edge surviving `deleteNode` does not
touch the deleted node, and `deleteGroup` keeps the edge set unchanged. -/
theorem delete_endpoint_edges_witness :
    ((⟨"node-62-node-63", "node-62", "node-63", none, none, none⟩ : NavigationEdge).source
        ≠ "node-61" ∧
     (⟨"node-62-node-63", "node-62", "node-63", none, none, none⟩ : NavigationEdge).target
        ≠ "node-61") ∧
    (deleteGroup
        ⟨[⟨"node-61", "a", "a", ".", none, none, ⟨0, 0⟩, none, none⟩],
         [⟨"node-61-node-62", "node-61", "node-62", none, none, none⟩,
          ⟨"node-62-node-63", "node-62", "node-63", none, none, none⟩],
         []⟩ "group-a").edges =
      [⟨"node-61-node-62", "node-61", "node-62", none, none, none⟩,
       ⟨"node-62-node-63", "node-62", "node-63", none, none, none⟩] := by
  have h := delete_endpoint_edges
    ⟨[⟨"node-61", "a", "a", ".", none, none, ⟨0, 0⟩, none, none⟩],
     [⟨"node-61-node-62", "node-61", "node-62", none, none, none⟩,
      ⟨"node-62-node-63", "node-62", "node-63", none, none, none⟩],
     []⟩ "node-61" "group-a"
  refine ⟨h.1 ⟨"node-62-node-63", "node-62", "node-63", none, none, none⟩ (by decide), h.2⟩

/-! C2: dangling-edge-free projections. -/

theorem dedupValidEdges_valid {validNodeIds : List String} :
    ∀ (l : List NavigationEdge) (seen : List String),
      ∀ e ∈ dedupValidEdges validNodeIds l seen,
        hasValidEndpoints validNodeIds e = true := by
  intro l
  induction l with
  | nil => intro seen e he; simp [dedupValidEdges] at he
  | cons edge rest ih =>
    intro seen e he
    unfold dedupValidEdges at he
    by_cases hc :
        (!(seen.contains edge.id) && hasValidEndpoints validNodeIds edge) = true
    · rw [if_pos hc] at he
      simp only [Bool.and_eq_true] at hc
      rcases List.mem_cons.mp he with rfl | hmem
      · exact hc.2
      · exact ih _ e hmem
    · rw [if_neg hc] at he
      exact ih _ e he

theorem contains_iff_mem {l : List String} {a : String} :
    l.contains a = true ↔ a ∈ l := by
  simp [List.contains]

/-- C2: for every view mode and every stored graph, each edge in the
projection's output has both its source id and its target id present among the
file nodes and the filtered groups of that same output. -/
theorem filteredEdges_no_dangling (viewMode : ViewMode) (inputNodes : List FileNode)
    (inputEdges completeEdges : List NavigationEdge)
    (inputGroups completeGroups : List GroupNode)
    (cachedPositions : List (String × Pos)) :
    ∀ e ∈ filteredEdges viewMode inputNodes inputEdges completeEdges
        (filteredGroups viewMode inputGroups completeGroups cachedPositions),
      e.source ∈ inputNodes.map (fun n => n.id) ++
        (filteredGroups viewMode inputGroups completeGroups cachedPositions).map
          (fun g => g.id) ∧
      e.target ∈ inputNodes.map (fun n => n.id) ++
        (filteredGroups viewMode inputGroups completeGroups cachedPositions).map
          (fun g => g.id) := by
  intro e he
  have hvalid : hasValidEndpoints
      (inputNodes.map (fun n => n.id) ++
        (filteredGroups viewMode inputGroups completeGroups cachedPositions).map
          (fun g => g.id)) e = true := by
    cases viewMode with
    | journey =>
      unfold filteredEdges at he
      simp only [List.mem_filter, Bool.and_eq_true] at he
      exact he.2.2
    | complete =>
      unfold filteredEdges at he
      exact dedupValidEdges_valid _ _ e he
    | plugin =>
      unfold filteredEdges at he
      simp only [List.mem_filter] at he
      exact he.2
    | threeD =>
      unfold filteredEdges at he
      simp only [List.mem_filter] at he
      exact he.2
  unfold hasValidEndpoints at hvalid
  simp only [Bool.and_eq_true] at hvalid
  exact ⟨contains_iff_mem.mp hvalid.1, contains_iff_mem.mp hvalid.2⟩

/-- C2 witness: in a concrete one-node journey graph, the surviving edge's
endpoints are present among the output nodes/groups. -/
theorem filteredEdges_no_dangling_witness :
    (⟨"node-61-node-62", "node-61", "node-62", none, none, none⟩ : NavigationEdge).source
        ∈ ([⟨"node-61", "a", "a", ".", none, none, ⟨0, 0⟩, none, none⟩,
            ⟨"node-62", "b", "b", ".", none, none, ⟨0, 0⟩, none, none⟩] :
            List FileNode).map (fun n => n.id) ++
          (filteredGroups ViewMode.journey
            [⟨"group-a", "a", GroupType.dependency, none, ⟨0, 0⟩, 200, 50, none, none⟩]
            [] []).map (fun g => g.id) ∧
    (⟨"node-61-node-62", "node-61", "node-62", none, none, none⟩ : NavigationEdge).target
        ∈ ([⟨"node-61", "a", "a", ".", none, none, ⟨0, 0⟩, none, none⟩,
            ⟨"node-62", "b", "b", ".", none, none, ⟨0, 0⟩, none, none⟩] :
            List FileNode).map (fun n => n.id) ++
          (filteredGroups ViewMode.journey
            [⟨"group-a", "a", GroupType.dependency, none, ⟨0, 0⟩, 200, 50, none, none⟩]
            [] []).map (fun g => g.id) := by
  exact filteredEdges_no_dangling ViewMode.journey
    [⟨"node-61", "a", "a", ".", none, none, ⟨0, 0⟩, none, none⟩,
     ⟨"node-62", "b", "b", ".", none, none, ⟨0, 0⟩, none, none⟩]
    [⟨"node-61-node-62", "node-61", "node-62", none, none, none⟩,
     ⟨"dep-group-b-group-a", "group-b", "group-a", none, none, some "dependency"⟩]
    []
    [⟨"group-a", "a", GroupType.dependency, none, ⟨0, 0⟩, 200, 50, none, none⟩]
    [] []
    ⟨"node-61-node-62", "node-61", "node-62", none, none, none⟩ (by decide)

/-! C9: worker fallback grid. -/

theorem fallbackPositions_get? (nodes : List LayoutNode) (i : Nat) (node : LayoutNode)
    (hget : nodes.get? i = some node) :
    (fallbackPositions nodes).get? i =
      some (node.id,
        ⟨((i % 8 : Nat) : ℚ) * (node.width + 50) + 50,
         ((i / 8 : Nat) : ℚ) * (node.height + 50) + 50⟩) := by
  unfold fallbackPositions
  rw [List.get?_eq_getElem?] at hget ⊢
  rw [List.getElem?_map, List.getElem?_enum, hget]
  rfl

/-- C9: when the force simulation throws, the worker's reply still assigns a
position to every input node, and the entry for node `i` is the deterministic
grid cell (column `i % 8`, row `i / 8`, scaled by the node's own width/height
plus fixed 50-pixel gaps and offset); the error is reported inside the reply
message rather than propagated to the caller. -/
theorem worker_fallback_grid (nodes : List LayoutNode) (msg : String) :
    (∀ i node, nodes.get? i = some node →
      (workerOnMessage nodes (Except.error msg)).positions.get? i =
        some (node.id,
          ⟨((i % 8 : Nat) : ℚ) * (node.width + 50) + 50,
           ((i / 8 : Nat) : ℚ) * (node.height + 50) + 50⟩)) ∧
    (∀ node ∈ nodes, ∃ p, (node.id, p) ∈
      (workerOnMessage nodes (Except.error msg)).positions) ∧
    (workerOnMessage nodes (Except.error msg)).error = some msg := by
  refine ⟨fun i node hget => fallbackPositions_get? nodes i node hget,
    fun node hmem => ?_, rfl⟩
  obtain ⟨i, hget⟩ := List.get?_of_mem hmem
  exact ⟨_, List.get?_mem (fallbackPositions_get? nodes i node hget)⟩

/-- C9 witness: two concrete nodes each receive their grid fallback position
when the simulation fails. -/
theorem worker_fallback_grid_witness :
    (workerOnMessage [⟨"g0", 180, 50⟩, ⟨"g1", 180, 50⟩]
        (Except.error "boom")).positions.get? 1 =
      some ("g1", ⟨((1 % 8 : Nat) : ℚ) * (180 + 50) + 50,
                   ((1 / 8 : Nat) : ℚ) * (50 + 50) + 50⟩) ∧
    (∃ p, ("g0", p) ∈
      (workerOnMessage [⟨"g0", 180, 50⟩, ⟨"g1", 180, 50⟩]
        (Except.error "boom")).positions) := by
  have h := worker_fallback_grid [⟨"g0", 180, 50⟩, ⟨"g1", 180, 50⟩] "boom"
  exact ⟨h.1 1 ⟨"g1", 180, 50⟩ (by decide), h.2.1 ⟨"g0", 180, 50⟩ (by decide)⟩

/-! C10: a pending symbol is consumed by at most one focus change. -/

/-- C10: whenever a focus change uses the fresh pending symbol, the transition
clears both the pending symbol and the pending enclosing-declaration symbol,
so no subsequent focus change can observe a fresh pending symbol until a new
identifier is touched. -/
theorem pending_symbol_consumed_once (getDisplayName : String → String)
    (tr : TrackerState) (s : GraphState)
    (filePath fileName relativePath pluginPath : String)
    (pluginInfo : Option LocalPluginInfo) (now : Int)
    (h : hasRecentSymbol tr filePath now = true) :
    (onEditorChange getDisplayName tr s filePath fileName relativePath pluginPath
        pluginInfo now).1.lastTrackedSymbol = none ∧
    (onEditorChange getDisplayName tr s filePath fileName relativePath pluginPath
        pluginInfo now).1.lastContainingSymbol = none ∧
    (∀ filePath2 now2,
      hasRecentSymbol
        (onEditorChange getDisplayName tr s filePath fileName relativePath
          pluginPath pluginInfo now).1 filePath2 now2 = false) := by
  unfold onEditorChange
  simp only [h, if_true]
  refine ⟨trivial, trivial, fun filePath2 now2 => ?_⟩
  unfold hasRecentSymbol
  simp

/-- C10 witness: a concrete fresh pending symbol is cleared by the focus
change that uses it, and the immediately following focus change sees none. -/
theorem pending_symbol_consumed_once_witness :
    (onEditorChange (fun r => r)
        ⟨some "a", some ⟨"doThing", 3, "a"⟩, some ⟨"caller", 1, "a"⟩, 100⟩
        emptyState "b" "b" "." "" none 200).1.lastTrackedSymbol = none ∧
    (onEditorChange (fun r => r)
        ⟨some "a", some ⟨"doThing", 3, "a"⟩, some ⟨"caller", 1, "a"⟩, 100⟩
        emptyState "b" "b" "." "" none 200).1.lastContainingSymbol = none ∧
    (∀ filePath2 now2,
      hasRecentSymbol
        (onEditorChange (fun r => r)
          ⟨some "a", some ⟨"doThing", 3, "a"⟩, some ⟨"caller", 1, "a"⟩, 100⟩
          emptyState "b" "b" "." "" none 200).1 filePath2 now2 = false) := by
  exact pending_symbol_consumed_once (fun r => r)
    ⟨some "a", some ⟨"doThing", 3, "a"⟩, some ⟨"caller", 1, "a"⟩, 100⟩
    emptyState "b" "b" "." "" none 200 (by decide)

/-! C7: group auto-resize. -/

theorem mem_replaceFirstGroup_self (l : List GroupNode) (group : GroupNode)
    (h : l.any (fun g => g.id == group.id) = true) :
    group ∈ replaceFirstGroup l group := by
  induction l with
  | nil => simp at h
  | cons g gs ih =>
    unfold replaceFirstGroup
    by_cases hg : (g.id == group.id) = true
    · rw [if_pos hg]; exact List.mem_cons_self _ _
    · rw [if_neg hg]
      refine List.mem_cons_of_mem _ (ih ?_)
      simp only [List.any_cons, Bool.or_eq_true] at h
      rcases h with h | h
      · exact absurd h hg
      · exact h

theorem replaceFirstGroup_id_surj (l : List GroupNode) (group : GroupNode) :
    ∀ H ∈ l, ∃ H' ∈ replaceFirstGroup l group, H'.id = H.id := by
  induction l with
  | nil => intro H hH; simp at hH
  | cons g gs ih =>
    intro H hH
    unfold replaceFirstGroup
    by_cases hg : (g.id == group.id) = true
    · rw [if_pos hg]
      rcases List.mem_cons.mp hH with rfl | hmem
      · exact ⟨group, List.mem_cons_self _ _, (beq_iff_eq.mp hg).symm⟩
      · exact ⟨H, List.mem_cons_of_mem _ hmem, rfl⟩
    · rw [if_neg hg]
      rcases List.mem_cons.mp hH with rfl | hmem
      · exact ⟨H, List.mem_cons_self _ _, rfl⟩
      · obtain ⟨H', hH', hid⟩ := ih H hmem
        exact ⟨H', List.mem_cons_of_mem _ hH', hid⟩

theorem updateGroup_mem_self (s : GraphState) (group : GroupNode)
    (h : s.groups.any (fun g => g.id == group.id) = true) :
    group ∈ (updateGroup s group).groups := by
  unfold updateGroup
  rw [if_pos h]
  exact mem_replaceFirstGroup_self s.groups group h

/-- C7 counterexample: closing one of the two files of `group-a` (height 222)
leaves it with one file but height 138 — a non-empty group's height shrinks
when its member-file count decreases. -/
theorem group_shrinks_counterexample :
    ((((onDocumentClose none
        ⟨[⟨generateNodeId "f1", "f1", "f1", ".", none, some "group-a", ⟨4, 54⟩, none, none⟩,
          ⟨generateNodeId "f2", "f2", "f2", ".", none, some "group-a", ⟨4, 138⟩, none, none⟩],
         [],
         [⟨"group-a", "a", GroupType.plugin, none, ⟨50, 50⟩, 268, 222, some [], none⟩]⟩
        "f1").2.groups.find? (fun g => g.id == "group-a")).map (fun g => g.height)) =
      some 138) ∧
    ((onDocumentClose none
        ⟨[⟨generateNodeId "f1", "f1", "f1", ".", none, some "group-a", ⟨4, 54⟩, none, none⟩,
          ⟨generateNodeId "f2", "f2", "f2", ".", none, some "group-a", ⟨4, 138⟩, none, none⟩],
         [],
         [⟨"group-a", "a", GroupType.plugin, none, ⟨50, 50⟩, 268, 222, some [], none⟩]⟩
        "f1").2.nodes.length = 1) ∧
    ((138 : ℚ) < 222) := by
  refine ⟨by with_unfolding_all rfl, by with_unfolding_all rfl, by norm_num⟩

/-- C7 (amended): whenever a group's size is recomputed from its member-file
count, a non-empty group keeps its width and gets height exactly
`header + count × (row height + spacing) + bottom padding` — so the height
shrinks when the count decreases — while an empty group collapses to the
fixed compact 200×50 regardless of prior size. -/
theorem updateGroupSize_spec (s : GraphState) (gid : String) (G : GroupNode)
    (hfind : s.groups.find? (fun g => g.id == gid) = some G) :
    ∃ G' ∈ (updateGroupSize s gid).groups, G'.id = G.id ∧
      (((s.nodes.filter (fun n => n.groupId == some gid)).length = 0 →
          G'.width = 200 ∧ G'.height = 50) ∧
       (0 < (s.nodes.filter (fun n => n.groupId == some gid)).length →
          G'.width = G.width ∧
          G'.height = GROUP_HEADER_HEIGHT +
            ((s.nodes.filter (fun n => n.groupId == some gid)).length : ℚ) *
              (NODE_HEIGHT + NODE_SPACING) + GROUP_PADDING)) := by
  have hmem : G ∈ s.groups := List.mem_of_find?_eq_some hfind
  have hany : s.groups.any (fun g => g.id == G.id) = true :=
    List.any_eq_true.mpr ⟨G, hmem, by simp⟩
  unfold updateGroupSize
  rw [hfind]
  dsimp only
  by_cases h0 : ((s.nodes.filter (fun n => n.groupId == some gid)).length == 0) = true
  · have h0' : (s.nodes.filter (fun n => n.groupId == some gid)).length = 0 := by
      simpa using h0
    rw [if_pos h0]
    by_cases hneq : (((50 : ℚ) != G.height) || ((200 : ℚ) != G.width)) = true
    · rw [if_pos hneq]
      exact ⟨{ G with width := 200, height := 50 }, updateGroup_mem_self s _ hany, rfl, fun _ => ⟨rfl, rfl⟩, fun hpos => by omega⟩
    · rw [if_neg hneq]
      simp only [Bool.or_eq_true, bne_iff_ne, ne_eq, not_or, not_not] at hneq
      exact ⟨G, hmem, rfl, fun _ => ⟨hneq.2.symm, hneq.1.symm⟩, fun hpos => by omega⟩
  · have h0' : (s.nodes.filter (fun n => n.groupId == some gid)).length ≠ 0 := by
      simpa using h0
    rw [if_neg h0]
    by_cases hneq :
        ((GROUP_HEADER_HEIGHT +
            ((s.nodes.filter (fun n => n.groupId == some gid)).length : ℚ) *
              (NODE_HEIGHT + NODE_SPACING) + GROUP_PADDING != G.height) ||
          (G.width != G.width)) = true
    · rw [if_pos hneq]
      exact ⟨{ G with width := G.width, height := GROUP_HEADER_HEIGHT + ((s.nodes.filter (fun n => n.groupId == some gid)).length : ℚ) * (NODE_HEIGHT + NODE_SPACING) + GROUP_PADDING }, updateGroup_mem_self s _ hany, rfl, fun hzero => absurd hzero h0', fun _ => ⟨rfl, rfl⟩⟩
    · rw [if_neg hneq]
      simp only [Bool.or_eq_true, bne_iff_ne, ne_eq, not_or, not_not] at hneq
      exact ⟨G, hmem, rfl, fun hzero => absurd hzero h0', fun _ => ⟨rfl, hneq.1.symm⟩⟩

/-- C7 witness: resizing a concrete one-file group keeps width 268 and sets
height to the exact formula value. -/
theorem updateGroupSize_spec_witness :
    ∃ G' ∈ (updateGroupSize
        ⟨[⟨"node-61", "a", "a", ".", none, some "group-a", ⟨4, 54⟩, none, none⟩],
         [],
         [⟨"group-a", "a", GroupType.plugin, none, ⟨50, 50⟩, 268, 222, some [], none⟩]⟩
        "group-a").groups,
      G'.id = (⟨"group-a", "a", GroupType.plugin, none, ⟨50, 50⟩, 268, 222, some [],
        none⟩ : GroupNode).id ∧
      ((([⟨"node-61", "a", "a", ".", none, some "group-a", ⟨4, 54⟩, none, none⟩] :
          List FileNode).filter (fun n => n.groupId == some "group-a")).length = 0 →
          G'.width = 200 ∧ G'.height = 50) ∧
      (0 < (([⟨"node-61", "a", "a", ".", none, some "group-a", ⟨4, 54⟩, none, none⟩] :
          List FileNode).filter (fun n => n.groupId == some "group-a")).length →
          G'.width = (⟨"group-a", "a", GroupType.plugin, none, ⟨50, 50⟩, 268, 222,
            some [], none⟩ : GroupNode).width ∧
          G'.height = GROUP_HEADER_HEIGHT +
            ((([⟨"node-61", "a", "a", ".", none, some "group-a", ⟨4, 54⟩, none, none⟩] :
              List FileNode).filter (fun n => n.groupId == some "group-a")).length : ℚ) *
              (NODE_HEIGHT + NODE_SPACING) + GROUP_PADDING) := by
  exact updateGroupSize_spec
    ⟨[⟨"node-61", "a", "a", ".", none, some "group-a", ⟨4, 54⟩, none, none⟩],
     [],
     [⟨"group-a", "a", GroupType.plugin, none, ⟨50, 50⟩, 268, 222, some [], none⟩]⟩
    "group-a"
    ⟨"group-a", "a", GroupType.plugin, none, ⟨50, 50⟩, 268, 222, some [], none⟩
    (by decide)

/-! C6: promotion of a dependency group. -/

theorem addEdge_groups (s : GraphState) (e : NavigationEdge) :
    (addEdge s e).groups = s.groups := by
  unfold addEdge; split <;> rfl

theorem mem_addGroup_groups (s : GraphState) (g H : GroupNode) (h : H ∈ s.groups) :
    H ∈ (addGroup s g).groups := by
  unfold addGroup
  split
  · exact h
  · exact List.mem_append_left _ h

theorem mem_createDependencyGroups_groups (getDisplayName : String → String)
    (s : GraphState) (requiredPlugins : List String) (mainGroupPosition : Pos)
    (mainGroupId : String) (H : GroupNode) (h : H ∈ s.groups) :
    H ∈ (createDependencyGroups getDisplayName s requiredPlugins mainGroupPosition
      mainGroupId).groups := by
  unfold createDependencyGroups
  refine @foldl_invariant GraphState (Nat × String) (fun acc => H ∈ acc.groups)
    _ _ s h ?_
  intro acc p _ hacc
  unfold createDependencyGroupStep
  dsimp only
  split
  · split
    · exact hacc
    · rw [addEdge_groups]; exact hacc
  · split
    · exact mem_addGroup_groups _ _ _ hacc
    · rw [addEdge_groups]; exact mem_addGroup_groups _ _ _ hacc

theorem updateGroup_id_surj (s : GraphState) (group : GroupNode) :
    ∀ H ∈ s.groups, ∃ H' ∈ (updateGroup s group).groups, H'.id = H.id := by
  unfold updateGroup
  split
  · exact replaceFirstGroup_id_surj s.groups group
  · intro H h; exact ⟨H, h, rfl⟩

/-- C6 counterexample: promoting dependency group `group-b` (plugin b declares
dependency `c` with no existing `group-c`) creates a brand-new group
`group-c` in the same transition, so "no new group is created" fails. -/
theorem promotion_creates_group_counterexample :
    ((⟨[], [],
        [⟨"group-b", "b", GroupType.dependency, none, ⟨0, 0⟩, 200, 50, none, none⟩]⟩ :
        GraphState).groups.all (fun g => g.id != "group-c") = true) ∧
    ((ensureGroup (fun r => r) "x-pack/b"
        (some ⟨"@kbn/b-plugin", "b", some ["c"], "/ws/b"⟩)
        ⟨[], [],
         [⟨"group-b", "b", GroupType.dependency, none, ⟨0, 0⟩, 200, 50, none, none⟩]⟩).2.groups.any
      (fun g => g.id == "group-c") = true) := by
  exact ⟨by with_unfolding_all rfl, by with_unfolding_all rfl⟩

/-- C6 (amended): promoting a dependency group `group-B` when a file of plugin
B is focused updates that group in place — same id, same position, type
`plugin`, requiredPlugins set to B's declared dependencies, width/height set to
the fixed expanded plugin size 268×138 — and removes no group; dependency
groups for B's declared dependencies (and their dependency edges) may however
be newly created in the same transition. -/
theorem ensureGroup_promotion (getDisplayName : String → String)
    (pluginPath : String) (pi : LocalPluginInfo) (s : GraphState) (G : GroupNode)
    (hrt : (pi.runtimeId == "") = false)
    (hfind : s.groups.find? (fun g => g.id == "group-" ++ pi.runtimeId) = some G)
    (htype : G.type = GroupType.dependency) :
    (ensureGroup getDisplayName pluginPath (some pi) s).1 =
      some ("group-" ++ pi.runtimeId) ∧
    (∃ G' ∈ (ensureGroup getDisplayName pluginPath (some pi) s).2.groups,
      G'.id = G.id ∧ G'.position = G.position ∧ G'.type = GroupType.plugin ∧
      G'.requiredPlugins = some (pi.requiredPlugins.getD []) ∧
      G'.width = 268 ∧ G'.height = 138) ∧
    (∀ H ∈ s.groups,
      ∃ H' ∈ (ensureGroup getDisplayName pluginPath (some pi) s).2.groups,
        H'.id = H.id) := by
  have hmem : G ∈ s.groups := List.mem_of_find?_eq_some hfind
  have hany : s.groups.any (fun g => g.id == G.id) = true :=
    List.any_eq_true.mpr ⟨G, hmem, by simp⟩
  have htypeb : (G.type == GroupType.dependency) = true :=
    GroupType.beq_iff_eq.mpr htype
  unfold ensureGroup
  dsimp only
  rw [if_neg (by simp [hrt]), hfind]
  dsimp only
  rw [if_pos htypeb]
  dsimp only
  refine ⟨rfl, ⟨{ G with type := GroupType.plugin, width := NODE_WIDTH + GROUP_PADDING * 2, height := GROUP_HEADER_HEIGHT + NODE_HEIGHT + GROUP_PADDING * 2, requiredPlugins := some (pi.requiredPlugins.getD []), pluginPath := some pluginPath }, mem_createDependencyGroups_groups _ _ _ _ _ _ (updateGroup_mem_self s _ hany), rfl, rfl, rfl, rfl, by norm_num [NODE_WIDTH, GROUP_PADDING], by norm_num [GROUP_HEADER_HEIGHT, NODE_HEIGHT, GROUP_PADDING]⟩, fun H hH => ?_⟩
  obtain ⟨H', hH', hid⟩ := updateGroup_id_surj s _ H hH
  exact ⟨H', mem_createDependencyGroups_groups _ _ _ _ _ _ hH', hid⟩

/-- C6 witness: a concrete dependency group `group-b` is promoted in place and
the pre-existing group's id survives. -/
theorem ensureGroup_promotion_witness :
    (ensureGroup (fun r => r) "x-pack/b"
        (some ⟨"@kbn/b-plugin", "b", some ["c"], "/ws/b"⟩)
        ⟨[], [],
         [⟨"group-b", "b", GroupType.dependency, none, ⟨7, 9⟩, 200, 50, none, none⟩]⟩).1 =
      some ("group-" ++ "b") ∧
    (∃ G' ∈ (ensureGroup (fun r => r) "x-pack/b"
        (some ⟨"@kbn/b-plugin", "b", some ["c"], "/ws/b"⟩)
        ⟨[], [],
         [⟨"group-b", "b", GroupType.dependency, none, ⟨7, 9⟩, 200, 50, none, none⟩]⟩).2.groups,
      G'.id = "group-b" ∧ G'.position = (⟨7, 9⟩ : Pos) ∧
      G'.type = GroupType.plugin ∧ G'.requiredPlugins = some ["c"] ∧
      G'.width = 268 ∧ G'.height = 138) ∧
    (∀ H ∈ ([⟨"group-b", "b", GroupType.dependency, none, ⟨7, 9⟩, 200, 50, none,
        none⟩] : List GroupNode),
      ∃ H' ∈ (ensureGroup (fun r => r) "x-pack/b"
        (some ⟨"@kbn/b-plugin", "b", some ["c"], "/ws/b"⟩)
        ⟨[], [],
         [⟨"group-b", "b", GroupType.dependency, none, ⟨7, 9⟩, 200, 50, none, none⟩]⟩).2.groups,
        H'.id = H.id) := by
  exact ensureGroup_promotion (fun r => r) "x-pack/b"
    ⟨"@kbn/b-plugin", "b", some ["c"], "/ws/b"⟩
    ⟨[], [], [⟨"group-b", "b", GroupType.dependency, none, ⟨7, 9⟩, 200, 50, none, none⟩]⟩
    ⟨"group-b", "b", GroupType.dependency, none, ⟨7, 9⟩, 200, 50, none, none⟩
    (by decide) (by decide) rfl

/-! C1: document close versus tab close on a group's last file. -/

theorem deleteGroup_nodes (s : GraphState) (groupId : String) :
    (deleteGroup s groupId).nodes = s.nodes := rfl

theorem deleteGroup_edges (s : GraphState) (groupId : String) :
    (deleteGroup s groupId).edges = s.edges := rfl

theorem cleanupGo_nodes (cs : GraphState) :
    ∀ (deps : List String) (acc : GraphState),
      (cleanupGo cs acc deps).nodes = acc.nodes := by
  intro deps
  induction deps with
  | nil => intro acc; rfl
  | cons d rest ih =>
    intro acc
    unfold cleanupGo
    dsimp only
    split
    · exact ih acc
    · split
      · exact ih acc
      · split
        · exact ih acc
        · rw [ih]; rfl

theorem cleanupGo_edges (cs : GraphState) :
    ∀ (deps : List String) (acc : GraphState),
      (cleanupGo cs acc deps).edges = acc.edges := by
  intro deps
  induction deps with
  | nil => intro acc; rfl
  | cons d rest ih =>
    intro acc
    unfold cleanupGo
    dsimp only
    split
    · exact ih acc
    · split
      · exact ih acc
      · split
        · exact ih acc
        · rw [ih]; rfl

theorem cleanupGo_groups_mono (cs : GraphState) :
    ∀ (deps : List String) (acc : GraphState) (g : GroupNode),
      g ∈ (cleanupGo cs acc deps).groups → g ∈ acc.groups := by
  intro deps
  induction deps with
  | nil => intro acc g h; exact h
  | cons d rest ih =>
    intro acc g h
    unfold cleanupGo at h
    dsimp only at h
    revert h
    split
    · exact fun h => ih acc g h
    · split
      · exact fun h => ih acc g h
      · split
        · exact fun h => ih acc g h
        · intro h
          have h1 := ih _ g h
          exact List.mem_of_mem_filter h1

theorem cleanupGo_removed_id (cs : GraphState) :
    ∀ (deps : List String) (acc : GraphState) (g : GroupNode),
      g ∈ acc.groups → g ∉ (cleanupGo cs acc deps).groups →
      ∃ dep ∈ deps, g.id = "group-" ++ dep := by
  intro deps
  induction deps with
  | nil => intro acc g hmem habs; exact absurd hmem habs
  | cons d rest ih =>
    intro acc g hmem habs
    unfold cleanupGo at habs
    dsimp only at habs
    revert habs
    split
    · intro habs
      obtain ⟨dep, hd, hid⟩ := ih acc g hmem habs
      exact ⟨dep, List.mem_cons_of_mem _ hd, hid⟩
    · split
      · intro habs
        obtain ⟨dep, hd, hid⟩ := ih acc g hmem habs
        exact ⟨dep, List.mem_cons_of_mem _ hd, hid⟩
      · split
        · intro habs
          obtain ⟨dep, hd, hid⟩ := ih acc g hmem habs
          exact ⟨dep, List.mem_cons_of_mem _ hd, hid⟩
        · intro habs
          by_cases hg : g ∈ (deleteGroup acc ("group-" ++ d)).groups
          · obtain ⟨dep, hd, hid⟩ := ih _ g hg habs
            exact ⟨dep, List.mem_cons_of_mem _ hd, hid⟩
          · refine ⟨d, List.mem_cons_self _ _, ?_⟩
            unfold deleteGroup at hg
            simp only [List.mem_filter, bne_iff_ne, ne_eq] at hg
            push_neg at hg
            exact hg hmem

theorem cleanupGo_keeps (cs : GraphState) :
    ∀ (deps : List String) (acc : GraphState) (g : GroupNode),
      g ∈ acc.groups →
      (∀ dep ∈ deps, g.id = "group-" ++ dep → orphanDeletable cs dep = false) →
      g ∈ (cleanupGo cs acc deps).groups := by
  intro deps
  induction deps with
  | nil => intro acc g hmem _; exact hmem
  | cons d rest ih =>
    intro acc g hmem hkeep
    unfold cleanupGo
    dsimp only
    have hrest : ∀ dep ∈ rest, g.id = "group-" ++ dep → orphanDeletable cs dep = false :=
      fun dep hd => hkeep dep (List.mem_cons_of_mem _ hd)
    split
    · exact ih acc g hmem hrest
    · split
      · exact ih acc g hmem hrest
      · split
        · exact ih acc g hmem hrest
        · refine ih _ g ?_ hrest
          unfold deleteGroup
          simp only [List.mem_filter, bne_iff_ne, ne_eq]
          refine ⟨hmem, fun hid => ?_⟩
          have hdel : orphanDeletable cs d = true := by
            unfold orphanDeletable
            rename_i hfind hlen hreq
            rw [hfind]
            rw [if_pos (by simp)]
            rw [if_neg hlen]
            simpa using hreq
          have hfalse := hkeep d (List.mem_cons_self _ _) hid
          rw [hdel] at hfalse
          simp at hfalse

theorem cleanupFormerRequired_some (s2 : GraphState) (reqs : List String) :
    cleanupFormerRequired s2 (some reqs) = cleanupOrphanedDependencies s2 reqs := rfl

theorem cleanupFormerRequired_none (s2 : GraphState) :
    cleanupFormerRequired s2 none = s2 := rfl

theorem cleanupGo_deletes (cs : GraphState) :
    ∀ (deps : List String) (acc : GraphState) (dep : String),
      dep ∈ deps → orphanDeletable cs dep = true →
      ∀ g ∈ (cleanupGo cs acc deps).groups, g.id ≠ "group-" ++ dep := by
  intro deps
  induction deps with
  | nil => intro acc dep hd; simp at hd
  | cons d rest ih =>
    intro acc dep hd hdel g hg
    rcases List.mem_cons.mp hd with rfl | hdrest
    · unfold orphanDeletable at hdel
      by_cases hs : ((cs.groups.find? (fun g => g.id == "group-" ++ dep)).isSome) = true
      · rw [if_pos hs] at hdel
        by_cases hlen : ((cs.nodes.filter
            (fun n => n.groupId == some ("group-" ++ dep))).length > 0)
        · rw [if_pos hlen] at hdel
          simp at hdel
        · rw [if_neg hlen] at hdel
          have hanyf : (cs.groups.any (fun g => g.type == GroupType.plugin &&
              g.id != "group-" ++ dep &&
              (g.requiredPlugins.getD []).contains dep)) = false := by
            simpa using hdel
          revert hg
          unfold cleanupGo
          dsimp only
          split
          · rename_i heq
            rw [heq] at hs
            simp at hs
          · rw [if_neg hlen, hanyf, if_neg (by simp)]
            intro hg
            have hg1 := cleanupGo_groups_mono cs rest _ g hg
            unfold deleteGroup at hg1
            simp only [List.mem_filter, bne_iff_ne, ne_eq] at hg1
            exact hg1.2
      · rw [if_neg hs] at hdel
        simp at hdel
    · revert hg
      unfold cleanupGo
      dsimp only
      split
      · exact fun hg => ih acc dep hdrest hdel g hg
      · split
        · exact fun hg => ih acc dep hdrest hdel g hg
        · split
          · exact fun hg => ih acc dep hdrest hdel g hg
          · exact fun hg => ih _ dep hdrest hdel g hg

theorem mem_replaceFirstGroup_of_id_ne (group H : GroupNode) :
    ∀ (l : List GroupNode), H ∈ l → H.id ≠ group.id →
      H ∈ replaceFirstGroup l group := by
  intro l
  induction l with
  | nil => intro h; simp at h
  | cons g gs ih =>
    intro hH hne
    unfold replaceFirstGroup
    split
    · rcases List.mem_cons.mp hH with rfl | hmem
      · exact absurd (beq_iff_eq.mp (by assumption)) hne
      · exact List.mem_cons_of_mem _ hmem
    · rcases List.mem_cons.mp hH with rfl | hmem
      · exact List.mem_cons_self _ _
      · exact List.mem_cons_of_mem _ (ih hmem hne)

theorem charsStartWith_append (p r : List Char) :
    charsStartWith p (p ++ r) = true := by
  induction p with
  | nil => rfl
  | cons c cs ih => simp [charsStartWith, ih]

theorem replaceFirst_group_append (x : String) :
    replaceFirst ("group-" ++ x) "group-" = x := by
  unfold replaceFirst
  rw [String.data_append]
  have hp : ("group-").data = ['g', 'r', 'o', 'u', 'p', '-'] := by decide
  rw [hp]
  show String.mk (removeFirstOcc ('g' :: 'r' :: 'o' :: 'u' :: 'p' :: '-' :: x.data)
    ['g', 'r', 'o', 'u', 'p', '-']) = x
  unfold removeFirstOcc
  rw [if_pos (by
    have := charsStartWith_append ['g', 'r', 'o', 'u', 'p', '-'] x.data
    simpa using this)]
  show String.mk (List.drop 6 ('g' :: 'r' :: 'o' :: 'u' :: 'p' :: '-' :: x.data)) = x
  simp [List.drop]

/-- C1 counterexample: a tab-close event on the last file of `group-a`, with
no other plugin requiring runtime id `a`, deletes the node but leaves the
group in the group set (merely resized to compact), where the claim demands
its deletion. -/
theorem tab_close_keeps_group_counterexample :
    ((⟨[⟨generateNodeId "f1", "f1", "f1", ".", none, some "group-a", ⟨4, 54⟩, none, none⟩],
       [],
       [⟨"group-a", "a", GroupType.plugin, none, ⟨50, 50⟩, 268, 138, some [], none⟩]⟩ :
       GraphState).nodes.any (fun n => n.id == generateNodeId "f1") = true) ∧
    ((⟨[⟨generateNodeId "f1", "f1", "f1", ".", none, some "group-a", ⟨4, 54⟩, none, none⟩],
       [],
       [⟨"group-a", "a", GroupType.plugin, none, ⟨50, 50⟩, 268, 138, some [], none⟩]⟩ :
       GraphState).groups.all (fun g =>
        !(g.type == GroupType.plugin && g.id != "group-a" &&
          (g.requiredPlugins.getD []).contains "a")) = true) ∧
    ((onTabClose
        ⟨[⟨generateNodeId "f1", "f1", "f1", ".", none, some "group-a", ⟨4, 54⟩, none, none⟩],
         [],
         [⟨"group-a", "a", GroupType.plugin, none, ⟨50, 50⟩, 268, 138, some [], none⟩]⟩
        "f1").nodes.length = 0) ∧
    ((onTabClose
        ⟨[⟨generateNodeId "f1", "f1", "f1", ".", none, some "group-a", ⟨4, 54⟩, none, none⟩],
         [],
         [⟨"group-a", "a", GroupType.plugin, none, ⟨50, 50⟩, 268, 138, some [], none⟩]⟩
        "f1").groups.any (fun g => g.id == "group-a") = true) := by
  exact ⟨by decide, by decide, by with_unfolding_all rfl, by with_unfolding_all rfl⟩

theorem updateGroup_nodes (s : GraphState) (group : GroupNode) :
    (updateGroup s group).nodes = s.nodes := by
  unfold updateGroup; split <;> rfl

theorem updateGroup_edges (s : GraphState) (group : GroupNode) :
    (updateGroup s group).edges = s.edges := by
  unfold updateGroup; split <;> rfl

theorem mem_updateGroup_of_id_ne (s : GraphState) (group H : GroupNode)
    (h : H ∈ s.groups) (hne : H.id ≠ group.id) :
    H ∈ (updateGroup s group).groups := by
  unfold updateGroup
  split
  · exact mem_replaceFirstGroup_of_id_ne group H s.groups h hne
  · exact h

/-- C1 (amended, scoped to the document-close handler): closing a document
whose file F has a node deletes the node and every edge touching it; then,
when F's group owned no other file and still exists, it is converted in place
to a compact `dependency` group when some other plugin group's requiredPlugins
lists its runtime id, and is deleted from the group set otherwise; the
follow-up cleanup is one-level — only F's group or groups named by its former
requiredPlugins can disappear — and a former required dependency group that is
orphaned at cleanup time is removed. (The tab-close handler, by contrast, only
deletes the node and resizes the group.) -/
theorem onDocumentClose_spec (prev : Option String) (s : GraphState)
    (filePath : String) (node : FileNode) (gid : String) (g₀ : GroupNode)
    (hfind : s.nodes.find? (fun n => n.id == generateNodeId filePath) = some node)
    (hgid : node.groupId = some gid)
    (hlast : ∀ n ∈ s.nodes, n.groupId = some gid → n.id = generateNodeId filePath)
    (hgroup : getGroup s gid = some g₀) :
    (∀ n ∈ (onDocumentClose prev s filePath).2.nodes,
      n.id ≠ generateNodeId filePath) ∧
    (∀ e ∈ (onDocumentClose prev s filePath).2.edges,
      e.source ≠ generateNodeId filePath ∧ e.target ≠ generateNodeId filePath) ∧
    ((s.groups.any (fun g => g.type == GroupType.plugin && g.id != gid &&
        (g.requiredPlugins.getD []).contains (replaceFirst gid "group-"))) = true →
      ∃ g ∈ (onDocumentClose prev s filePath).2.groups,
        g.id = gid ∧ g.type = GroupType.dependency ∧ g.requiredPlugins = none ∧
        g.position = g₀.position ∧ g.width = 100 ∧ g.height = 50) ∧
    ((s.groups.any (fun g => g.type == GroupType.plugin && g.id != gid &&
        (g.requiredPlugins.getD []).contains (replaceFirst gid "group-"))) = false →
      (∀ g ∈ (onDocumentClose prev s filePath).2.groups, g.id ≠ gid) ∧
      (∀ dep ∈ g₀.requiredPlugins.getD [],
        orphanDeletable (deleteGroup (deleteNode s (generateNodeId filePath)) gid)
          dep = true →
        ∀ g ∈ (onDocumentClose prev s filePath).2.groups,
          g.id ≠ "group-" ++ dep)) ∧
    (∀ H ∈ s.groups,
      (∀ H' ∈ (onDocumentClose prev s filePath).2.groups, H'.id ≠ H.id) →
      H.id = gid ∨ ∃ dep ∈ g₀.requiredPlugins.getD [], H.id = "group-" ++ dep) := by
  have hg₀mem : g₀ ∈ s.groups := List.mem_of_find?_eq_some hgroup
  have hg₀id : g₀.id = gid := by simpa using List.find?_some hgroup
  have hempty : getNodesInGroup (deleteNode s (generateNodeId filePath)) gid = [] := by
    unfold getNodesInGroup deleteNode
    dsimp only
    rw [List.filter_filter]
    rw [List.filter_eq_nil_iff]
    intro n hn
    simp only [Bool.and_eq_true, beq_iff_eq, bne_iff_ne, ne_eq, not_and]
    intro hng
    simp [hlast n hn hng]
  have hemptyb : ((getNodesInGroup (deleteNode s (generateNodeId filePath)) gid).length
      == 0) = true := by
    rw [hempty]; rfl
  have hshape : (onDocumentClose prev s filePath).2 =
      emptyGroupCleanup (deleteNode s (generateNodeId filePath)) gid := by
    unfold onDocumentClose
    dsimp only
    rw [hfind]
    dsimp only
    rw [hgid]
    dsimp only
    rw [if_pos hemptyb]
  rw [hshape]
  unfold emptyGroupCleanup
  rw [if_pos hemptyb]
  have hgroup1 : getGroup (deleteNode s (generateNodeId filePath)) gid = some g₀ := hgroup
  rw [hgroup1]
  dsimp only
  unfold demoteOrDelete
  by_cases hany : (s.groups.any (fun g => g.type == GroupType.plugin && g.id != gid &&
      (g.requiredPlugins.getD []).contains (replaceFirst gid "group-"))) = true
  · have hsome : ((deleteNode s (generateNodeId filePath)).groups.find?
        (fun g => g.type == GroupType.plugin && g.id != gid &&
          (g.requiredPlugins.getD []).contains (replaceFirst gid "group-"))).isSome =
        true := by
      rw [List.find?_isSome]
      exact List.any_eq_true.mp hany
    rw [if_pos hsome]
    dsimp only
    have hconvmem : ({ g₀ with type := GroupType.dependency, width := 100, height := 50, requiredPlugins := none } : GroupNode) ∈
        (updateGroup (deleteNode s (generateNodeId filePath))
          { g₀ with type := GroupType.dependency, width := 100, height := 50, requiredPlugins := none }).groups :=
      updateGroup_mem_self _ _ (List.any_eq_true.mpr ⟨g₀, hg₀mem, by simp⟩)
    cases hreqp : g₀.requiredPlugins with
    | none =>
      rw [cleanupFormerRequired_none]
      refine ⟨?_, ?_, fun _ => ?_, fun hfalse => ?_, ?_⟩
      · intro n hn
        rw [updateGroup_nodes] at hn
        simp only [deleteNode, List.mem_filter, Bool.and_eq_true, bne_iff_ne, ne_eq] at hn
        exact hn.2
      · intro e he
        rw [updateGroup_edges] at he
        simp only [deleteNode, List.mem_filter, Bool.and_eq_true, bne_iff_ne, ne_eq] at he
        exact he.2
      · exact ⟨_, hconvmem, hg₀id, rfl, rfl, rfl, rfl, rfl⟩
      · rw [hany] at hfalse; simp at hfalse
      · intro H hH habs
        obtain ⟨H2, hH2, hid2⟩ := updateGroup_id_surj (deleteNode s (generateNodeId filePath)) { g₀ with type := GroupType.dependency, width := 100, height := 50, requiredPlugins := none } H hH
        exact absurd hid2 (habs H2 hH2)
    | some reqs =>
      rw [cleanupFormerRequired_some]
      unfold cleanupOrphanedDependencies
      refine ⟨?_, ?_, fun _ => ?_, fun hfalse => ?_, ?_⟩
      · intro n hn
        rw [cleanupGo_nodes, updateGroup_nodes] at hn
        simp only [deleteNode, List.mem_filter, Bool.and_eq_true, bne_iff_ne, ne_eq] at hn
        exact hn.2
      · intro e he
        rw [cleanupGo_edges, updateGroup_edges] at he
        simp only [deleteNode, List.mem_filter, Bool.and_eq_true, bne_iff_ne, ne_eq] at he
        exact he.2
      · refine ⟨_, cleanupGo_keeps _ reqs _ _ hconvmem ?_, hg₀id, rfl, rfl, rfl, rfl, rfl⟩
        intro dep hdep hid
        have hgd : "group-" ++ dep = gid := by rw [← hid]; exact hg₀id
        have hdepid : replaceFirst gid "group-" = dep := by
          rw [← hgd, replaceFirst_group_append]
        unfold orphanDeletable
        have hsome2 : ((updateGroup (deleteNode s (generateNodeId filePath))
            { g₀ with type := GroupType.dependency, width := 100, height := 50, requiredPlugins := none }).groups.find?
            (fun g => g.id == "group-" ++ dep)).isSome = true := by
          rw [List.find?_isSome]
          exact ⟨_, hconvmem, by simp only [beq_iff_eq]; exact hid⟩
        rw [if_pos hsome2]
        have hlen : ¬(((updateGroup (deleteNode s (generateNodeId filePath))
            { g₀ with type := GroupType.dependency, width := 100, height := 50, requiredPlugins := none }).nodes.filter
            (fun n => n.groupId == some ("group-" ++ dep))).length > 0) := by
          rw [updateGroup_nodes, hgd]
          have hfe : (deleteNode s (generateNodeId filePath)).nodes.filter
              (fun n => n.groupId == some gid) = [] := hempty
          rw [hfe]
          simp
        rw [if_neg hlen]
        obtain ⟨Hw, hwmem, hwp⟩ := List.any_eq_true.mp hany
        simp only [Bool.and_eq_true, bne_iff_ne, ne_eq] at hwp
        obtain ⟨⟨hw1, hw2⟩, hw3⟩ := hwp
        have hwmem2 : Hw ∈ (updateGroup (deleteNode s (generateNodeId filePath))
            { g₀ with type := GroupType.dependency, width := 100, height := 50, requiredPlugins := none }).groups := by
          refine mem_updateGroup_of_id_ne _ _ _ hwmem ?_
          show Hw.id ≠ g₀.id
          rw [hg₀id]
          exact hw2
        have hstill : ((updateGroup (deleteNode s (generateNodeId filePath))
            { g₀ with type := GroupType.dependency, width := 100, height := 50, requiredPlugins := none }).groups.any
            (fun g => g.type == GroupType.plugin && g.id != "group-" ++ dep &&
              (g.requiredPlugins.getD []).contains dep)) = true := by
          refine List.any_eq_true.mpr ⟨Hw, hwmem2, ?_⟩
          rw [hgd, ← hdepid]
          simp only [Bool.and_eq_true, bne_iff_ne, ne_eq]
          exact ⟨⟨hw1, hw2⟩, hw3⟩
        rw [hstill]
        rfl
      · rw [hany] at hfalse; simp at hfalse
      · intro H hH habs
        obtain ⟨H2, hH2, hid2⟩ := updateGroup_id_surj (deleteNode s (generateNodeId filePath)) { g₀ with type := GroupType.dependency, width := 100, height := 50, requiredPlugins := none } H hH
        by_cases hH2r : H2 ∈ (cleanupGo
            (updateGroup (deleteNode s (generateNodeId filePath))
              { g₀ with type := GroupType.dependency, width := 100, height := 50, requiredPlugins := none })
            (updateGroup (deleteNode s (generateNodeId filePath))
              { g₀ with type := GroupType.dependency, width := 100, height := 50, requiredPlugins := none }) reqs).groups
        · exact absurd hid2 (habs H2 hH2r)
        · obtain ⟨dep, hdep, hH2id⟩ := cleanupGo_removed_id _ reqs _ H2 hH2 hH2r
          refine Or.inr ⟨dep, by simpa using hdep, ?_⟩
          rw [← hid2]
          exact hH2id
  · have hall : ∀ x ∈ s.groups, ¬((fun g => g.type == GroupType.plugin && g.id != gid &&
        (g.requiredPlugins.getD []).contains (replaceFirst gid "group-")) x = true) := by
      intro x hx hpx
      exact hany (List.any_eq_true.mpr ⟨x, hx, hpx⟩)
    have hnone : (deleteNode s (generateNodeId filePath)).groups.find?
        (fun g => g.type == GroupType.plugin && g.id != gid &&
          (g.requiredPlugins.getD []).contains (replaceFirst gid "group-")) = none :=
      List.find?_eq_none.mpr hall
    rw [if_neg (by rw [hnone]; simp)]
    cases hreqp : g₀.requiredPlugins with
    | none =>
      rw [cleanupFormerRequired_none]
      refine ⟨?_, ?_, fun htrue => absurd htrue hany, fun _ => ⟨?_, ?_⟩, ?_⟩
      · intro n hn
        simp only [deleteGroup, deleteNode, List.mem_filter, Bool.and_eq_true,
          bne_iff_ne, ne_eq] at hn
        exact hn.2
      · intro e he
        simp only [deleteGroup, deleteNode, List.mem_filter, Bool.and_eq_true,
          bne_iff_ne, ne_eq] at he
        exact he.2
      · intro g hg
        simp only [deleteGroup, List.mem_filter, bne_iff_ne, ne_eq] at hg
        exact hg.2
      · intro dep hdep
        simp at hdep
      · intro H hH habs
        by_cases hid : H.id = gid
        · exact Or.inl hid
        · have hH2 : H ∈ (deleteGroup (deleteNode s (generateNodeId filePath)) gid).groups := by
            simp only [deleteGroup, List.mem_filter, bne_iff_ne, ne_eq]
            exact ⟨hH, hid⟩
          exact absurd rfl (habs H hH2)
    | some reqs =>
      rw [cleanupFormerRequired_some]
      unfold cleanupOrphanedDependencies
      refine ⟨?_, ?_, fun htrue => absurd htrue hany, fun _ => ⟨?_, ?_⟩, ?_⟩
      · intro n hn
        rw [cleanupGo_nodes] at hn
        simp only [deleteGroup, deleteNode, List.mem_filter, Bool.and_eq_true,
          bne_iff_ne, ne_eq] at hn
        exact hn.2
      · intro e he
        rw [cleanupGo_edges] at he
        simp only [deleteGroup, deleteNode, List.mem_filter, Bool.and_eq_true,
          bne_iff_ne, ne_eq] at he
        exact he.2
      · intro g hg
        have hg1 := cleanupGo_groups_mono _ reqs _ g hg
        simp only [deleteGroup, List.mem_filter, bne_iff_ne, ne_eq] at hg1
        exact hg1.2
      · intro dep hdep hdel g hg
        refine cleanupGo_deletes _ reqs _ dep ?_ hdel g hg
        simpa using hdep
      · intro H hH habs
        by_cases hid : H.id = gid
        · exact Or.inl hid
        · have hH2 : H ∈ (deleteGroup (deleteNode s (generateNodeId filePath)) gid).groups := by
            simp only [deleteGroup, List.mem_filter, bne_iff_ne, ne_eq]
            exact ⟨hH, hid⟩
          by_cases hH2r : H ∈ (cleanupGo
              (deleteGroup (deleteNode s (generateNodeId filePath)) gid)
              (deleteGroup (deleteNode s (generateNodeId filePath)) gid) reqs).groups
          · exact absurd rfl (habs H hH2r)
          · obtain ⟨dep, hdep, hHid⟩ := cleanupGo_removed_id _ reqs _ H hH2 hH2r
            exact Or.inr ⟨dep, by simpa using hdep, hHid⟩

/-- C1 witness: closing the only file of a concrete `group-a` that plugin `c`
still requires demotes `group-a` to a compact dependency group in place. -/
theorem onDocumentClose_spec_witness :
    ∃ g ∈ (onDocumentClose none
        ⟨[⟨generateNodeId "f1", "f1", "f1", ".", none, some "group-a", ⟨4, 54⟩, none, none⟩],
         [⟨"dep-group-b-group-a", "group-b", "group-a", some "top-source",
            some "bottom-target", some "dependency"⟩],
         [⟨"group-a", "a", GroupType.plugin, none, ⟨50, 50⟩, 268, 138, some ["b"], none⟩,
          ⟨"group-b", "b", GroupType.dependency, none, ⟨0, 300⟩, 200, 50, none, none⟩,
          ⟨"group-c", "c", GroupType.plugin, none, ⟨0, 600⟩, 268, 138, some ["a"], none⟩]⟩
        "f1").2.groups,
      g.id = "group-a" ∧ g.type = GroupType.dependency ∧ g.requiredPlugins = none ∧
      g.position = (⟨"group-a", "a", GroupType.plugin, none, ⟨50, 50⟩, 268, 138,
        some ["b"], none⟩ : GroupNode).position ∧ g.width = 100 ∧ g.height = 50 := by
  have h := onDocumentClose_spec none
    ⟨[⟨generateNodeId "f1", "f1", "f1", ".", none, some "group-a", ⟨4, 54⟩, none, none⟩],
     [⟨"dep-group-b-group-a", "group-b", "group-a", some "top-source",
        some "bottom-target", some "dependency"⟩],
     [⟨"group-a", "a", GroupType.plugin, none, ⟨50, 50⟩, 268, 138, some ["b"], none⟩,
      ⟨"group-b", "b", GroupType.dependency, none, ⟨0, 300⟩, 200, 50, none, none⟩,
      ⟨"group-c", "c", GroupType.plugin, none, ⟨0, 600⟩, 268, 138, some ["a"], none⟩]⟩
    "f1"
    ⟨generateNodeId "f1", "f1", "f1", ".", none, some "group-a", ⟨4, 54⟩, none, none⟩
    "group-a"
    ⟨"group-a", "a", GroupType.plugin, none, ⟨50, 50⟩, 268, 138, some ["b"], none⟩
    (by decide) rfl (by decide) (by decide)
  exact h.2.2.1 (by decide)

/-! C8: collision resolution on a pair of rectangles. -/

theorem resolvePair_false (A B : NodeRect) (t m : ℚ)
    (hr : (resolvePair A B t m).2 = false) :
    (resolvePair A B t m).1 = (A, B) ∧
    (getOverlap A B m).1 ≤ t ∧ (getOverlap A B m).2 ≤ t := by
  unfold resolvePair at hr ⊢
  by_cases hc : ((getOverlap A B m).1 > t ∨ (getOverlap A B m).2 > t)
  · rw [if_pos hc] at hr
    dsimp only at hr
    exfalso
    revert hr
    split
    · split <;> simp
    · split <;> simp
  · rw [if_neg hc]
    push_neg at hc
    exact ⟨rfl, hc.1, hc.2⟩

theorem getOverlap_zero_left (A B : NodeRect) (m : ℚ)
    (h : A.x + A.width + m - B.x ≤ 0) : getOverlap A B m = (0, 0) := by
  unfold getOverlap
  rw [if_pos (Or.inl (le_trans (min_le_left _ _) h))]

theorem getOverlap_zero_right (A B : NodeRect) (m : ℚ)
    (h : B.x + B.width + m - A.x ≤ 0) : getOverlap A B m = (0, 0) := by
  unfold getOverlap
  rw [if_pos (Or.inl (le_trans (min_le_right _ _) h))]

theorem getOverlap_zero_top (A B : NodeRect) (m : ℚ)
    (h : A.y + A.height + m - B.y ≤ 0) : getOverlap A B m = (0, 0) := by
  unfold getOverlap
  rw [if_pos (Or.inr (le_trans (min_le_left _ _) h))]

theorem getOverlap_zero_bottom (A B : NodeRect) (m : ℚ)
    (h : B.y + B.height + m - A.y ≤ 0) : getOverlap A B m = (0, 0) := by
  unfold getOverlap
  rw [if_pos (Or.inr (le_trans (min_le_right _ _) h))]

theorem resolvePair_sep (A B : NodeRect) (t m : ℚ) (hm : 0 ≤ m) (ht : 0 ≤ t)
    (hr : (resolvePair A B t m).2 = true) :
    getOverlap (resolvePair A B t m).1.1 (resolvePair A B t m).1.2 m = (0, 0) := by
  have hov : getOverlap A B m =
      if min (A.x + A.width + m - B.x) (B.x + B.width + m - A.x) ≤ 0 ∨
         min (A.y + A.height + m - B.y) (B.y + B.height + m - A.y) ≤ 0
      then ((0 : ℚ), (0 : ℚ))
      else (min (A.x + A.width + m - B.x) (B.x + B.width + m - A.x),
            min (A.y + A.height + m - B.y) (B.y + B.height + m - A.y)) := rfl
  unfold resolvePair at hr ⊢
  by_cases hc : ((getOverlap A B m).1 > t ∨ (getOverlap A B m).2 > t)
  · by_cases h0 : min (A.x + A.width + m - B.x) (B.x + B.width + m - A.x) ≤ 0 ∨
        min (A.y + A.height + m - B.y) (B.y + B.height + m - A.y) ≤ 0
    · exfalso
      rw [hov, if_pos h0] at hc
      rcases hc with hc | hc <;> exact absurd hc (by simpa using ht)
    · push_neg at h0
      have hoX : (getOverlap A B m).1 =
          min (A.x + A.width + m - B.x) (B.x + B.width + m - A.x) := by
        rw [hov, if_neg (by push_neg; exact h0)]
      have hoY : (getOverlap A B m).2 =
          min (A.y + A.height + m - B.y) (B.y + B.height + m - A.y) := by
        rw [hov, if_neg (by push_neg; exact h0)]
      rw [if_pos hc]
      dsimp only
      split
      · split
        · rename_i hax hdx
          have hmin : min (A.x + A.width + m - B.x) (B.x + B.width + m - A.x) =
              A.x + A.width + m - B.x := min_eq_left (by linarith)
          rw [hoX, hmin]
          apply getOverlap_zero_left
          dsimp only
          linarith
        · rename_i hax hdx
          have hmin : min (A.x + A.width + m - B.x) (B.x + B.width + m - A.x) =
              B.x + B.width + m - A.x := min_eq_right (by linarith)
          rw [hoX, hmin]
          apply getOverlap_zero_right
          dsimp only
          linarith
      · split
        · rename_i hax hdy
          have hmin : min (A.y + A.height + m - B.y) (B.y + B.height + m - A.y) =
              A.y + A.height + m - B.y := min_eq_left (by linarith)
          rw [hoY, hmin]
          apply getOverlap_zero_top
          dsimp only
          linarith
        · rename_i hax hdy
          have hmin : min (A.y + A.height + m - B.y) (B.y + B.height + m - A.y) =
              B.y + B.height + m - A.y := min_eq_right (by linarith)
          rw [hoY, hmin]
          apply getOverlap_zero_bottom
          dsimp only
          linarith
  · rw [if_neg hc] at hr
    simp at hr

theorem abs_push (a b p : ℚ) : |a - p - a| = |b + p - b| := by
  have h1 : a - p - a = -(b + p - b) := by ring
  rw [h1, abs_neg]

theorem abs_push' (a b p : ℚ) : |a + p - a| = |b - p - b| := by
  have h1 : a + p - a = -(b - p - b) := by ring
  rw [h1, abs_neg]

theorem resolvePair_true_spec (A B : NodeRect) (t m : ℚ) (ht : 0 ≤ t)
    (hr : (resolvePair A B t m).2 = true) :
    ((resolvePair A B t m).1.1.id = A.id ∧
     (resolvePair A B t m).1.1.width = A.width ∧
     (resolvePair A B t m).1.1.height = A.height ∧
     (resolvePair A B t m).1.1.parentId = A.parentId) ∧
    ((resolvePair A B t m).1.2.id = B.id ∧
     (resolvePair A B t m).1.2.width = B.width ∧
     (resolvePair A B t m).1.2.height = B.height ∧
     (resolvePair A B t m).1.2.parentId = B.parentId) ∧
    (resolvePair A B t m).1.1.x + (resolvePair A B t m).1.2.x = A.x + B.x ∧
    (resolvePair A B t m).1.1.y + (resolvePair A B t m).1.2.y = A.y + B.y ∧
    |(resolvePair A B t m).1.1.x - A.x| = |(resolvePair A B t m).1.2.x - B.x| ∧
    |(resolvePair A B t m).1.1.y - A.y| = |(resolvePair A B t m).1.2.y - B.y| ∧
    (0 ≤ m →
      A.x + A.width / 2 ≤ B.x + B.width / 2 →
      A.y + A.height / 2 ≤ B.y + B.height / 2 →
      (resolvePair A B t m).1.1.x ≤ A.x ∧ (resolvePair A B t m).1.1.y ≤ A.y ∧
      B.x ≤ (resolvePair A B t m).1.2.x ∧ B.y ≤ (resolvePair A B t m).1.2.y) := by
  have hov : getOverlap A B m =
      if min (A.x + A.width + m - B.x) (B.x + B.width + m - A.x) ≤ 0 ∨
         min (A.y + A.height + m - B.y) (B.y + B.height + m - A.y) ≤ 0
      then ((0 : ℚ), (0 : ℚ))
      else (min (A.x + A.width + m - B.x) (B.x + B.width + m - A.x),
            min (A.y + A.height + m - B.y) (B.y + B.height + m - A.y)) := rfl
  have hpos : ((getOverlap A B m).1 > t ∨ (getOverlap A B m).2 > t) →
      0 ≤ m → 0 ≤ (getOverlap A B m).1 ∧ 0 ≤ (getOverlap A B m).2 := by
    intro hc hm
    by_cases h0 : min (A.x + A.width + m - B.x) (B.x + B.width + m - A.x) ≤ 0 ∨
        min (A.y + A.height + m - B.y) (B.y + B.height + m - A.y) ≤ 0
    · rw [hov, if_pos h0] at hc ⊢
      exact ⟨le_refl 0, le_refl 0⟩
    · push_neg at h0
      rw [hov, if_neg (by push_neg; exact h0)]
      exact ⟨le_of_lt h0.1, le_of_lt h0.2⟩
  unfold resolvePair at hr ⊢
  by_cases hc : ((getOverlap A B m).1 > t ∨ (getOverlap A B m).2 > t)
  · rw [if_pos hc]
    dsimp only
    split
    · split
      · rename_i hax hdx
        refine ⟨⟨rfl, rfl, rfl, rfl⟩, ⟨rfl, rfl, rfl, rfl⟩, ?_, ?_, ?_, ?_, ?_⟩
        · dsimp only; try ring
        · dsimp only; try ring
        · dsimp only; exact abs_push _ _ _
        · simp
        · intro hm _ _
          have := (hpos hc hm).1
          exact ⟨by dsimp only; linarith, le_refl _, by dsimp only; linarith, le_refl _⟩
      · rename_i hax hdx
        refine ⟨⟨rfl, rfl, rfl, rfl⟩, ⟨rfl, rfl, rfl, rfl⟩, ?_, ?_, ?_, ?_, ?_⟩
        · dsimp only; try ring
        · dsimp only; try ring
        · dsimp only; exact abs_push' _ _ _
        · simp
        · intro hm hx hy
          exact absurd (by linarith : (0 : ℚ) ≤ B.x + B.width / 2 - (A.x + A.width / 2)) hdx
    · split
      · rename_i hax hdy
        refine ⟨⟨rfl, rfl, rfl, rfl⟩, ⟨rfl, rfl, rfl, rfl⟩, ?_, ?_, ?_, ?_, ?_⟩
        · dsimp only; try ring
        · dsimp only; try ring
        · simp
        · dsimp only; exact abs_push _ _ _
        · intro hm _ _
          have := (hpos hc hm).2
          exact ⟨le_refl _, by dsimp only; linarith, le_refl _, by dsimp only; linarith⟩
      · rename_i hax hdy
        refine ⟨⟨rfl, rfl, rfl, rfl⟩, ⟨rfl, rfl, rfl, rfl⟩, ?_, ?_, ?_, ?_, ?_⟩
        · dsimp only; try ring
        · dsimp only; try ring
        · simp
        · dsimp only; exact abs_push' _ _ _
        · intro hm hx hy
          exact absurd (by linarith : (0 : ℚ) ≤ B.y + B.height / 2 - (A.y + A.height / 2)) hdy
  · rw [if_neg hc] at hr
    simp at hr

theorem sweep_pair (A B : NodeRect) (t m : ℚ) :
    sweep [A, B] t m =
      (if (resolvePair A B t m).2 = true
        then [(resolvePair A B t m).1.1, (resolvePair A B t m).1.2]
        else [A, B],
       (resolvePair A B t m).2) := by
  unfold sweep
  rw [show pairsBelow ([A, B] : List NodeRect).length = [(0, 1)] from rfl]
  simp only [List.foldl_cons, List.foldl_nil]
  unfold sweepAt
  rw [show getRect [A, B] 0 = A from rfl, show getRect [A, B] 1 = B from rfl]
  dsimp only
  by_cases hr : (resolvePair A B t m).2 = true
  · rw [if_pos hr, if_pos hr]
    rw [hr]
    rfl
  · rw [if_neg hr, if_neg hr]
    simp only [Bool.not_eq_true] at hr
    rw [hr]
    rfl

theorem resolveLoop_steady (A B : NodeRect) (t m : ℚ)
    (hr : (resolvePair A B t m).2 = false) :
    ∀ fuel, resolveLoop fuel [A, B] t m = [A, B] := by
  intro fuel
  cases fuel with
  | zero => rfl
  | succ k =>
    unfold resolveLoop
    rw [sweep_pair]
    dsimp only
    rw [hr]
    rfl

theorem resolveNodeCollisions_pair (A B : NodeRect) (fuel : Nat) (t m : ℚ)
    (hm : 0 ≤ m) (ht : 0 ≤ t) (hfuel : 1 ≤ fuel) :
    ∃ A' B', resolveNodeCollisions [A, B] fuel t m = [A', B'] ∧
      (A'.id = A.id ∧ A'.width = A.width ∧ A'.height = A.height ∧
        A'.parentId = A.parentId) ∧
      (B'.id = B.id ∧ B'.width = B.width ∧ B'.height = B.height ∧
        B'.parentId = B.parentId) ∧
      (getOverlap A' B' m).1 ≤ t ∧ (getOverlap A' B' m).2 ≤ t ∧
      A'.x + B'.x = A.x + B.x ∧ A'.y + B'.y = A.y + B.y ∧
      |A'.x - A.x| = |B'.x - B.x| ∧ |A'.y - A.y| = |B'.y - B.y| ∧
      (A.x + A.width / 2 ≤ B.x + B.width / 2 →
        A.y + A.height / 2 ≤ B.y + B.height / 2 →
        A'.x ≤ A.x ∧ A'.y ≤ A.y ∧ B.x ≤ B'.x ∧ B.y ≤ B'.y) := by
  obtain ⟨k, rfl⟩ : ∃ k, fuel = k + 1 := ⟨fuel - 1, by omega⟩
  unfold resolveNodeCollisions
  unfold resolveLoop
  rw [sweep_pair]
  dsimp only
  by_cases hr : (resolvePair A B t m).2 = true
  · simp only [if_pos hr]
    have hsep := resolvePair_sep A B t m hm ht hr
    have hspec := resolvePair_true_spec A B t m ht hr
    have hnext : ∀ (C D : NodeRect), getOverlap C D m = (0, 0) →
        (resolvePair C D t m).2 = false := by
      intro C D hCD
      unfold resolvePair
      rw [hCD]
      rw [if_neg (by push_neg; constructor <;> simpa using ht)]
    rw [resolveLoop_steady _ _ t m (hnext _ _ hsep) k]
    obtain ⟨hA4, hB4, hxs, hys, hax, hay, hdir⟩ := hspec
    exact ⟨_, _, rfl, hA4, hB4, by rw [hsep]; exact ht, by rw [hsep]; exact ht,
      hxs, hys, hax, hay, fun h1 h2 => hdir hm h1 h2⟩
  · have hrn : ¬((resolvePair A B t m).2 = true) := hr
    simp only [if_neg hrn]
    have hrf : (resolvePair A B t m).2 = false := by
      simpa using hr
    obtain ⟨hpair, ho1, ho2⟩ := resolvePair_false A B t m hrf
    exact ⟨A, B, rfl, ⟨rfl, rfl, rfl, rfl⟩, ⟨rfl, rfl, rfl, rfl⟩, ho1, ho2, rfl, rfl,
      by simp, by simp, fun _ _ => ⟨le_refl _, le_refl _, le_refl _, le_refl _⟩⟩

theorem resolveLoop_nil (t m : ℚ) : ∀ fuel, resolveLoop fuel [] t m = [] := by
  intro fuel
  cases fuel <;> rfl

theorem resolveLoop_single (R : NodeRect) (t m : ℚ) :
    ∀ fuel, resolveLoop fuel [R] t m = [R] := by
  intro fuel
  cases fuel <;> rfl

theorem mapback_fields (N R : NodeRect) :
    ((if (R.x != N.x || R.y != N.y) = true then { N with x := R.x, y := R.y }
      else N).x = R.x ∧
     (if (R.x != N.x || R.y != N.y) = true then { N with x := R.x, y := R.y }
      else N).y = R.y) ∧
    ((if (R.x != N.x || R.y != N.y) = true then { N with x := R.x, y := R.y }
      else N).id = N.id ∧
     (if (R.x != N.x || R.y != N.y) = true then { N with x := R.x, y := R.y }
      else N).width = N.width ∧
     (if (R.x != N.x || R.y != N.y) = true then { N with x := R.x, y := R.y }
      else N).height = N.height ∧
     (if (R.x != N.x || R.y != N.y) = true then { N with x := R.x, y := R.y }
      else N).parentId = N.parentId) := by
  split
  · exact ⟨⟨rfl, rfl⟩, rfl, rfl, rfl, rfl⟩
  · rename_i h
    simp only [Bool.or_eq_true, bne_iff_ne, ne_eq, not_or, not_not] at h
    exact ⟨⟨h.1.symm, h.2.symm⟩, rfl, rfl, rfl, rfl⟩

theorem getOverlap_fields (P P' Q Q' : NodeRect) (m : ℚ)
    (hx : P.x = P'.x) (hy : P.y = P'.y) (hw : P.width = P'.width)
    (hh : P.height = P'.height) (qx : Q.x = Q'.x) (qy : Q.y = Q'.y)
    (qw : Q.width = Q'.width) (qh : Q.height = Q'.height) :
    getOverlap P Q m = getOverlap P' Q' m := by
  unfold getOverlap
  rw [hx, hy, hw, hh, qx, qy, qw, qh]

theorem mapBack_eq_some (resolved : List NodeRect) (node R : NodeRect)
    (h : resolved.find? (fun r => r.id == node.id) = some R) :
    mapBack resolved node =
      if R.x != node.x || R.y != node.y then { node with x := R.x, y := R.y }
      else node := by
  unfold mapBack
  rw [h]

theorem mapBack_pair_id (L : List NodeRect) (A B : NodeRect)
    (hfA : L.find? (fun r => r.id == A.id) = some A)
    (hfB : L.find? (fun r => r.id == B.id) = some B) :
    [A, B].map (mapBack L) = [A, B] := by
  simp only [List.map_cons, List.map_nil]
  rw [mapBack_eq_some L A A hfA, mapBack_eq_some L B B hfB]
  simp

theorem resolveCollisions_pair_top (A B A' B' : NodeRect) (mi : Nat) (t m : ℚ)
    (hqa : A.parentId = none) (hqb : B.parentId = none)
    (hres : resolveNodeCollisions [A, B] mi t m = [A', B']) :
    resolveCollisions [A, B] mi t m = [A, B].map (mapBack [A', B']) := by
  unfold resolveCollisions
  dsimp only
  have h1 : ([A, B].filter (fun n => n.parentId == none)) = [A, B] := by
    simp [hqa, hqb]
  have h2 : ([A, B].filter (fun n => !(n.parentId == none))) = [] := by
    simp [hqa, hqb]
  rw [h1, h2, hres]
  rfl

theorem resolveCollisions_pair_child (A B A' B' : NodeRect) (p : String)
    (mi : Nat) (t m : ℚ)
    (hqa : A.parentId = some p) (hqb : B.parentId = some p)
    (hres : resolveNodeCollisions [A, B] mi t m = [A', B']) :
    resolveCollisions [A, B] mi t m = [A, B].map (mapBack [A', B']) := by
  unfold resolveCollisions
  dsimp only
  have h1 : ([A, B].filter (fun n => n.parentId == none)) = [] := by
    simp [hqa, hqb]
  have h2 : ([A, B].filter (fun n => !(n.parentId == none))) = [A, B] := by
    simp [hqa, hqb]
  rw [h1, h2]
  have h3 : ([A, B].filterMap (fun n => n.parentId)) = [p, p] := by
    simp [hqa, hqb]
  rw [h3]
  have h4 : firstOccurrences [p, p] [] = [p] := by
    simp [firstOccurrences]
  rw [h4]
  have h6 : ∀ f : String → List NodeRect,
      ([p] : List String).flatMap f = f p ++ [] := fun f => rfl
  rw [h6]
  have h5 : ([A, B].filter (fun n => n.parentId == some p)) = [A, B] := by
    simp [hqa, hqb]
  rw [show resolveNodeCollisions [] mi t m = [] from resolveLoop_nil t m mi]
  rw [h5, hres]
  rfl

theorem resolveCollisions_pair_mixed₁ (A B : NodeRect) (p : String)
    (mi : Nat) (t m : ℚ)
    (hqa : A.parentId = none) (hqb : B.parentId = some p) :
    resolveCollisions [A, B] mi t m = [A, B].map (mapBack [A, B]) := by
  unfold resolveCollisions
  dsimp only
  have h1 : ([A, B].filter (fun n => n.parentId == none)) = [A] := by
    simp [hqa, hqb]
  have h2 : ([A, B].filter (fun n => !(n.parentId == none))) = [B] := by
    simp [hqa, hqb]
  rw [h1, h2]
  have h3 : ([B].filterMap (fun n => n.parentId)) = [p] := by
    simp [hqb]
  rw [h3]
  have h4 : firstOccurrences [p] [] = [p] := rfl
  rw [h4]
  have h6 : ∀ f : String → List NodeRect,
      ([p] : List String).flatMap f = f p ++ [] := fun f => rfl
  rw [h6]
  have h5 : ([B].filter (fun n => n.parentId == some p)) = [B] := by
    simp [hqb]
  rw [h5]
  rw [show resolveNodeCollisions [A] mi t m = [A] from resolveLoop_single A t m mi]
  rw [show resolveNodeCollisions [B] mi t m = [B] from resolveLoop_single B t m mi]
  rfl

theorem resolveCollisions_pair_mixed₂ (A B : NodeRect) (p : String)
    (mi : Nat) (t m : ℚ)
    (hqa : A.parentId = some p) (hqb : B.parentId = none) :
    resolveCollisions [A, B] mi t m = [A, B].map (mapBack [B, A]) := by
  unfold resolveCollisions
  dsimp only
  have h1 : ([A, B].filter (fun n => n.parentId == none)) = [B] := by
    simp [hqa, hqb]
  have h2 : ([A, B].filter (fun n => !(n.parentId == none))) = [A] := by
    simp [hqa, hqb]
  rw [h1, h2]
  have h3 : ([A].filterMap (fun n => n.parentId)) = [p] := by
    simp [hqa]
  rw [h3]
  have h4 : firstOccurrences [p] [] = [p] := rfl
  rw [h4]
  have h6 : ∀ f : String → List NodeRect,
      ([p] : List String).flatMap f = f p ++ [] := fun f => rfl
  rw [h6]
  have h5 : ([A].filter (fun n => n.parentId == some p)) = [A] := by
    simp [hqa]
  rw [h5]
  rw [show resolveNodeCollisions [A] mi t m = [A] from resolveLoop_single A t m mi]
  rw [show resolveNodeCollisions [B] mi t m = [B] from resolveLoop_single B t m mi]
  rfl

theorem resolveCollisions_pair_mixed₃ (A B : NodeRect) (p q : String)
    (mi : Nat) (t m : ℚ)
    (hqa : A.parentId = some p) (hqb : B.parentId = some q) (hpq : p ≠ q) :
    resolveCollisions [A, B] mi t m = [A, B].map (mapBack [A, B]) := by
  unfold resolveCollisions
  dsimp only
  have h1 : ([A, B].filter (fun n => n.parentId == none)) = [] := by
    simp [hqa, hqb]
  have h2 : ([A, B].filter (fun n => !(n.parentId == none))) = [A, B] := by
    simp [hqa, hqb]
  rw [h1, h2]
  have h3 : ([A, B].filterMap (fun n => n.parentId)) = [p, q] := by
    simp [hqa, hqb]
  rw [h3]
  have h4 : firstOccurrences [p, q] [] = [p, q] := by
    simp [firstOccurrences, Ne.symm hpq]
  rw [h4]
  have h6 : ∀ f : String → List NodeRect,
      ([p, q] : List String).flatMap f = f p ++ (f q ++ []) := fun f => rfl
  rw [h6]
  have h5a : ([A, B].filter (fun n => n.parentId == some p)) = [A] := by
    simp [hqa, hqb, Ne.symm hpq]
  have h5b : ([A, B].filter (fun n => n.parentId == some q)) = [B] := by
    simp [hqa, hqb, hpq]
  rw [h5a, h5b]
  rw [show resolveNodeCollisions [] mi t m = [] from resolveLoop_nil t m mi]
  rw [show resolveNodeCollisions [A] mi t m = [A] from resolveLoop_single A t m mi]
  rw [show resolveNodeCollisions [B] mi t m = [B] from resolveLoop_single B t m mi]
  rfl

/-- C8: collision resolution on a pair of rectangles. If the two share a
parent (both top-level or both children of the same parent), the resolved
pair keeps ids and sizes, has residual overlap (margin included) at most the
threshold on both axes, and the displacement is split symmetrically: the
coordinate sums are preserved, both rectangles move by the same absolute
amount, and each moves away from the other's center. If the parents differ,
the pair is returned unchanged: different-parent rectangles are never pushed
against each other. -/
theorem resolveCollisions_pair_spec (A B : NodeRect) (maxIterations : Nat)
    (t m : ℚ) (hid : A.id ≠ B.id) (hm : 0 ≤ m) (ht : 0 ≤ t)
    (hfuel : 1 ≤ maxIterations) :
    (A.parentId = B.parentId →
      ∃ A₂ B₂, resolveCollisions [A, B] maxIterations t m = [A₂, B₂] ∧
        A₂.id = A.id ∧ B₂.id = B.id ∧
        A₂.width = A.width ∧ A₂.height = A.height ∧
        B₂.width = B.width ∧ B₂.height = B.height ∧
        (getOverlap A₂ B₂ m).1 ≤ t ∧ (getOverlap A₂ B₂ m).2 ≤ t ∧
        A₂.x + B₂.x = A.x + B.x ∧ A₂.y + B₂.y = A.y + B.y ∧
        |A₂.x - A.x| = |B₂.x - B.x| ∧ |A₂.y - A.y| = |B₂.y - B.y| ∧
        (A.x + A.width / 2 ≤ B.x + B.width / 2 →
          A.y + A.height / 2 ≤ B.y + B.height / 2 →
          A₂.x ≤ A.x ∧ A₂.y ≤ A.y ∧ B.x ≤ B₂.x ∧ B.y ≤ B₂.y)) ∧
    (A.parentId ≠ B.parentId →
      resolveCollisions [A, B] maxIterations t m = [A, B]) := by
  obtain ⟨A', B', hres, ⟨ha1, ha2, ha3, ha4⟩, ⟨hb1, hb2, hb3, hb4⟩, ho1, ho2,
    hxs, hys, hax, hay, hdir⟩ :=
    resolveNodeCollisions_pair A B maxIterations t m hm ht hfuel
  constructor
  · intro hpq
    have hmain : resolveCollisions [A, B] maxIterations t m =
        [A, B].map (mapBack [A', B']) := by
      cases hqa : A.parentId with
      | none =>
        exact resolveCollisions_pair_top A B A' B' maxIterations t m hqa
          (by rw [← hpq, hqa]) hres
      | some p =>
        exact resolveCollisions_pair_child A B A' B' p maxIterations t m hqa
          (by rw [← hpq, hqa]) hres
    have hfA : ([A', B'] : List NodeRect).find? (fun r => r.id == A.id) =
        some A' :=
      List.find?_cons_of_pos _ (by simp [ha1])
    have hfB : ([A', B'] : List NodeRect).find? (fun r => r.id == B.id) =
        some B' := by
      rw [List.find?_cons_of_neg _ (by simp [ha1]; exact hid)]
      exact List.find?_cons_of_pos _ (by simp [hb1])
    have eA := mapBack_eq_some [A', B'] A A' hfA
    have eB := mapBack_eq_some [A', B'] B B' hfB
    obtain ⟨⟨ax, ay⟩, aid, aw, ah, ap⟩ := mapback_fields A A'
    obtain ⟨⟨bx, hby⟩, bid, bw, bh, bp⟩ := mapback_fields B B'
    have gax : (mapBack [A', B'] A).x = A'.x := by rw [eA]; exact ax
    have gay : (mapBack [A', B'] A).y = A'.y := by rw [eA]; exact ay
    have gaid : (mapBack [A', B'] A).id = A.id := by rw [eA]; exact aid
    have gaw : (mapBack [A', B'] A).width = A.width := by rw [eA]; exact aw
    have gah : (mapBack [A', B'] A).height = A.height := by rw [eA]; exact ah
    have gbx : (mapBack [A', B'] B).x = B'.x := by rw [eB]; exact bx
    have gby : (mapBack [A', B'] B).y = B'.y := by rw [eB]; exact hby
    have gbid : (mapBack [A', B'] B).id = B.id := by rw [eB]; exact bid
    have gbw : (mapBack [A', B'] B).width = B.width := by rw [eB]; exact bw
    have gbh : (mapBack [A', B'] B).height = B.height := by rw [eB]; exact bh
    have hgo : getOverlap (mapBack [A', B'] A) (mapBack [A', B'] B) m =
        getOverlap A' B' m :=
      getOverlap_fields _ _ _ _ m gax gay (gaw.trans ha2.symm)
        (gah.trans ha3.symm) gbx gby (gbw.trans hb2.symm) (gbh.trans hb3.symm)
    refine ⟨mapBack [A', B'] A, mapBack [A', B'] B, hmain, gaid, gbid, gaw,
      gah, gbw, gbh, ?_, ?_, ?_, ?_, ?_, ?_, ?_⟩
    · rw [hgo]; exact ho1
    · rw [hgo]; exact ho2
    · rw [gax, gbx]; exact hxs
    · rw [gay, gby]; exact hys
    · rw [gax, gbx]; exact hax
    · rw [gay, gby]; exact hay
    · intro h1 h2
      obtain ⟨d1, d2, d3, d4⟩ := hdir h1 h2
      exact ⟨by rw [gax]; exact d1, by rw [gay]; exact d2,
        by rw [gbx]; exact d3, by rw [gby]; exact d4⟩
  · intro hne
    have hfA : ([A, B] : List NodeRect).find? (fun r => r.id == A.id) =
        some A :=
      List.find?_cons_of_pos _ (by simp)
    have hfB : ([A, B] : List NodeRect).find? (fun r => r.id == B.id) =
        some B := by
      rw [List.find?_cons_of_neg _ (by simp; exact hid)]
      exact List.find?_cons_of_pos _ (by simp)
    have hfA' : ([B, A] : List NodeRect).find? (fun r => r.id == A.id) =
        some A := by
      rw [List.find?_cons_of_neg _ (by simp; exact Ne.symm hid)]
      exact List.find?_cons_of_pos _ (by simp)
    have hfB' : ([B, A] : List NodeRect).find? (fun r => r.id == B.id) =
        some B :=
      List.find?_cons_of_pos _ (by simp)
    cases hqa : A.parentId with
    | none =>
      cases hqb : B.parentId with
      | none => exact absurd (hqa.trans hqb.symm) hne
      | some p =>
        rw [resolveCollisions_pair_mixed₁ A B p maxIterations t m hqa hqb]
        exact mapBack_pair_id [A, B] A B hfA hfB
    | some p =>
      cases hqb : B.parentId with
      | none =>
        rw [resolveCollisions_pair_mixed₂ A B p maxIterations t m hqa hqb]
        exact mapBack_pair_id [B, A] A B hfA' hfB'
      | some q =>
        have hpq : p ≠ q := by
          intro h
          exact hne (by rw [hqa, hqb, h])
        rw [resolveCollisions_pair_mixed₃ A B p q maxIterations t m hqa hqb hpq]
        exact mapBack_pair_id [A, B] A B hfA hfB

/-- Witness for `resolveCollisions_pair_spec` at two concrete overlapping
top-level rectangles. -/
theorem resolveCollisions_pair_spec_witness :
    ((⟨"a", 0, 0, 100, 100, none⟩ : NodeRect).parentId =
        (⟨"b", 50, 0, 100, 100, none⟩ : NodeRect).parentId →
      ∃ A₂ B₂, resolveCollisions
          [(⟨"a", 0, 0, 100, 100, none⟩ : NodeRect),
           (⟨"b", 50, 0, 100, 100, none⟩ : NodeRect)] 50 1 10 = [A₂, B₂] ∧
        A₂.id = (⟨"a", 0, 0, 100, 100, none⟩ : NodeRect).id ∧
        B₂.id = (⟨"b", 50, 0, 100, 100, none⟩ : NodeRect).id ∧
        A₂.width = (⟨"a", 0, 0, 100, 100, none⟩ : NodeRect).width ∧
        A₂.height = (⟨"a", 0, 0, 100, 100, none⟩ : NodeRect).height ∧
        B₂.width = (⟨"b", 50, 0, 100, 100, none⟩ : NodeRect).width ∧
        B₂.height = (⟨"b", 50, 0, 100, 100, none⟩ : NodeRect).height ∧
        (getOverlap A₂ B₂ 10).1 ≤ 1 ∧ (getOverlap A₂ B₂ 10).2 ≤ 1 ∧
        A₂.x + B₂.x = (⟨"a", 0, 0, 100, 100, none⟩ : NodeRect).x +
          (⟨"b", 50, 0, 100, 100, none⟩ : NodeRect).x ∧
        A₂.y + B₂.y = (⟨"a", 0, 0, 100, 100, none⟩ : NodeRect).y +
          (⟨"b", 50, 0, 100, 100, none⟩ : NodeRect).y ∧
        |A₂.x - (⟨"a", 0, 0, 100, 100, none⟩ : NodeRect).x| =
          |B₂.x - (⟨"b", 50, 0, 100, 100, none⟩ : NodeRect).x| ∧
        |A₂.y - (⟨"a", 0, 0, 100, 100, none⟩ : NodeRect).y| =
          |B₂.y - (⟨"b", 50, 0, 100, 100, none⟩ : NodeRect).y| ∧
        ((⟨"a", 0, 0, 100, 100, none⟩ : NodeRect).x +
            (⟨"a", 0, 0, 100, 100, none⟩ : NodeRect).width / 2 ≤
          (⟨"b", 50, 0, 100, 100, none⟩ : NodeRect).x +
            (⟨"b", 50, 0, 100, 100, none⟩ : NodeRect).width / 2 →
         (⟨"a", 0, 0, 100, 100, none⟩ : NodeRect).y +
            (⟨"a", 0, 0, 100, 100, none⟩ : NodeRect).height / 2 ≤
          (⟨"b", 50, 0, 100, 100, none⟩ : NodeRect).y +
            (⟨"b", 50, 0, 100, 100, none⟩ : NodeRect).height / 2 →
          A₂.x ≤ (⟨"a", 0, 0, 100, 100, none⟩ : NodeRect).x ∧
          A₂.y ≤ (⟨"a", 0, 0, 100, 100, none⟩ : NodeRect).y ∧
          (⟨"b", 50, 0, 100, 100, none⟩ : NodeRect).x ≤ B₂.x ∧
          (⟨"b", 50, 0, 100, 100, none⟩ : NodeRect).y ≤ B₂.y)) ∧
    ((⟨"a", 0, 0, 100, 100, none⟩ : NodeRect).parentId ≠
        (⟨"b", 50, 0, 100, 100, none⟩ : NodeRect).parentId →
      resolveCollisions
          [(⟨"a", 0, 0, 100, 100, none⟩ : NodeRect),
           (⟨"b", 50, 0, 100, 100, none⟩ : NodeRect)] 50 1 10 =
        [(⟨"a", 0, 0, 100, 100, none⟩ : NodeRect),
         (⟨"b", 50, 0, 100, 100, none⟩ : NodeRect)]) :=
  resolveCollisions_pair_spec ⟨"a", 0, 0, 100, 100, none⟩
    ⟨"b", 50, 0, 100, 100, none⟩ 50 1 10 (by decide) (by norm_num)
    (by norm_num) (by decide)

theorem addNode_edges (s : GraphState) (n : FileNode) :
    (addNode s n).edges = s.edges := by
  unfold addNode; split <;> rfl

theorem addGroup_edges (s : GraphState) (g : GroupNode) :
    (addGroup s g).edges = s.edges := by
  unfold addGroup; split <;> rfl

theorem addSymbolToNode_edges (s : GraphState) (nodeId : String)
    (sym : TrackedSymbol) : (addSymbolToNode s nodeId sym).edges = s.edges := rfl

theorem addSourceSymbolToNode_edges (s : GraphState) (nodeId : String)
    (sym : TrackedSymbol) :
    (addSourceSymbolToNode s nodeId sym).edges = s.edges := rfl

theorem updateNodePosition_edges (s : GraphState) (nodeId : String) (p : Pos) :
    (updateNodePosition s nodeId p).edges = s.edges := rfl

theorem updateGroupSize_edges (s : GraphState) (groupId : String) :
    (updateGroupSize s groupId).edges = s.edges := by
  unfold updateGroupSize
  split
  · rfl
  · dsimp only
    split <;> split <;> first | exact updateGroup_edges _ _ | rfl

theorem cleanupFormerRequired_edges (s : GraphState)
    (reqs : Option (List String)) :
    (cleanupFormerRequired s reqs).edges = s.edges := by
  cases reqs with
  | none => rfl
  | some l => exact cleanupGo_edges s l s

theorem demoteOrDelete_edges (s : GraphState) (groupId : String)
    (g : GroupNode) : (demoteOrDelete s groupId g).edges = s.edges := by
  unfold demoteOrDelete
  dsimp only
  split
  · rw [cleanupFormerRequired_edges]
    exact updateGroup_edges _ _
  · rw [cleanupFormerRequired_edges]
    exact deleteGroup_edges _ _

theorem emptyGroupCleanup_edges (s : GraphState) (groupId : String) :
    (emptyGroupCleanup s groupId).edges = s.edges := by
  unfold emptyGroupCleanup
  split
  · split
    · rfl
    · exact demoteOrDelete_edges _ _ _
  · rfl

theorem navInv_sublist {s t : GraphState} (h : List.Sublist s.edges t.edges)
    (ht : NavInvariant t) : NavInvariant s :=
  ⟨List.Nodup.sublist (List.Sublist.map _ h) ht.1,
   fun e he hn => ht.2.1 e (List.Sublist.subset h he) hn,
   fun e₁ h₁ e₂ h₂ n₁ n₂ hp =>
     ht.2.2 e₁ (List.Sublist.subset h h₁) e₂ (List.Sublist.subset h h₂) n₁ n₂ hp⟩

theorem navInv_edges_eq {s t : GraphState} (h : s.edges = t.edges)
    (ht : NavInvariant t) : NavInvariant s :=
  navInv_sublist (h ▸ List.Sublist.refl s.edges) ht

theorem navInv_ite (c : Prop) [Decidable c] (s₁ s₂ : GraphState)
    (h₁ : NavInvariant s₁) (h₂ : NavInvariant s₂) :
    NavInvariant (if c then s₁ else s₂) := by
  split <;> assumption

theorem navInv_deleteNode {s : GraphState} (nodeId : String)
    (hs : NavInvariant s) : NavInvariant (deleteNode s nodeId) :=
  navInv_sublist (List.filter_sublist s.edges) hs

theorem navInv_addEdge_dep {s : GraphState} (e : NavigationEdge)
    (hdep : e.edgeType = some "dependency") (hs : NavInvariant s) :
    NavInvariant (addEdge s e) := by
  have hnn : ¬e.isNav := fun hn => hn hdep
  unfold addEdge
  split
  · exact hs
  · refine ⟨?_, ?_, ?_⟩
    · rename_i hany
      have hne : ∀ x ∈ s.edges, x.id ≠ e.id :=
        any_id_eq_false (by simpa using hany)
      simp only [List.map_append, List.map_cons, List.map_nil]
      rw [List.nodup_append]
      refine ⟨hs.1, List.nodup_singleton _, ?_⟩
      intro a ha hb
      obtain ⟨x, hx, hxa⟩ := List.mem_map.mp ha
      simp only [List.mem_singleton] at hb
      exact hne x hx (hxa.trans hb)
    · intro e' he' hn
      rcases List.mem_append.mp he' with h | h
      · exact hs.2.1 e' h hn
      · simp only [List.mem_singleton] at h
        exact absurd (h ▸ hn) hnn
    · intro e₁ h₁ e₂ h₂ n₁ n₂ hp
      rcases List.mem_append.mp h₁ with h₁ | h₁ <;>
        rcases List.mem_append.mp h₂ with h₂ | h₂
      · exact hs.2.2 e₁ h₁ e₂ h₂ n₁ n₂ hp
      · simp only [List.mem_singleton] at h₂
        exact absurd (h₂ ▸ n₂) hnn
      · simp only [List.mem_singleton] at h₁
        exact absurd (h₁ ▸ n₁) hnn
      · simp only [List.mem_singleton] at h₁ h₂
        rw [h₁, h₂]

theorem navInv_empty : NavInvariant emptyState := by
  refine ⟨by simp [emptyState], ?_, ?_⟩
  · intro e he
    simp [emptyState] at he
  · intro e₁ h₁
    simp [emptyState] at h₁

theorem navInv_createDependencyGroupStep (gdn : String → String) (mp : Pos)
    (mid : String) (nd : Nat) (acc : GraphState) (p : Nat × String)
    (hacc : NavInvariant acc) :
    NavInvariant (createDependencyGroupStep gdn mp mid nd acc p) := by
  unfold createDependencyGroupStep
  dsimp only
  apply navInv_ite
  · apply navInv_ite
    · exact hacc
    · exact navInv_edges_eq (addGroup_edges _ _) hacc
  · apply navInv_addEdge_dep
    · rfl
    · apply navInv_ite
      · exact hacc
      · exact navInv_edges_eq (addGroup_edges _ _) hacc

theorem navInv_createDependencyGroups (gdn : String → String) (s : GraphState)
    (reqs : List String) (mp : Pos) (mid : String) (hs : NavInvariant s) :
    NavInvariant (createDependencyGroups gdn s reqs mp mid) := by
  unfold createDependencyGroups
  exact foldl_invariant _ _ s hs
    (fun a b _ ha => navInv_createDependencyGroupStep gdn mp mid reqs.length a b ha)

theorem navInv_ensureGroup (gdn : String → String) (pluginPath : String)
    (pluginInfo : Option LocalPluginInfo) (s : GraphState)
    (hs : NavInvariant s) :
    NavInvariant (ensureGroup gdn pluginPath pluginInfo s).2 := by
  unfold ensureGroup
  cases pluginInfo with
  | none => exact hs
  | some pinfo =>
    dsimp only
    split
    · exact hs
    · split
      · split
        · dsimp only
          exact navInv_createDependencyGroups _ _ _ _ _
            (navInv_edges_eq (updateGroup_edges _ _) hs)
        · exact hs
      · dsimp only
        exact navInv_createDependencyGroups _ _ _ _ _
          (navInv_edges_eq (addGroup_edges _ _) hs)

theorem navInv_editorChangeNodePhase (gdn : String → String)
    (navigatedSymbol : Option TrackedSymbol) (s : GraphState)
    (filePath fileName relativePath pluginPath : String)
    (pluginInfo : Option LocalPluginInfo) (hs : NavInvariant s) :
    NavInvariant (editorChangeNodePhase gdn navigatedSymbol s filePath fileName
      relativePath pluginPath pluginInfo) := by
  unfold editorChangeNodePhase
  dsimp only
  split
  · split
    · exact navInv_edges_eq (updateGroupSize_edges _ _)
        (navInv_edges_eq (addNode_edges _ _)
          (navInv_ensureGroup gdn pluginPath pluginInfo s hs))
    · exact navInv_edges_eq (addNode_edges _ _)
        (navInv_ensureGroup gdn pluginPath pluginInfo s hs)
  · split
    · exact hs
    · split
      · exact hs
      · exact navInv_edges_eq (addSymbolToNode_edges _ _ _) hs

theorem navInv_editorChangeSourcePhase (tr : TrackerState) (recent : Bool)
    (s : GraphState) (hs : NavInvariant s) :
    NavInvariant (editorChangeSourcePhase tr recent s) := by
  unfold editorChangeSourcePhase
  split
  · split
    · dsimp only
      split
      · exact hs
      · split
        · exact hs
        · exact navInv_edges_eq (addSourceSymbolToNode_edges _ _ _) hs
    · exact hs
  · exact hs

theorem navInv_editorChangeEdgePhase (tr : TrackerState) (s : GraphState)
    (filePath : String) (hs : NavInvariant s) :
    NavInvariant (editorChangeEdgePhase tr s filePath) := by
  unfold editorChangeEdgePhase
  split
  · exact hs
  · rename_i prevPath heq
    split
    · exact hs
    · dsimp only
      split
      · exact hs
      · rename_i hexists
        have hno : ∀ e ∈ s.edges,
            e.id ≠ generateNodeId prevPath ++ "-" ++ generateNodeId filePath ∧
            e.id ≠ generateNodeId filePath ++ "-" ++ generateNodeId prevPath := by
          intro e he
          by_contra hcon
          apply hexists
          refine List.any_eq_true.mpr ⟨e, he, ?_⟩
          rcases not_and_or.mp hcon with h | h <;> simp at h <;> simp [h]
        unfold addEdge
        split
        · exact hs
        · refine ⟨?_, ?_, ?_⟩
          · rename_i hany
            have hne : ∀ x ∈ s.edges, x.id ≠
                generateNodeId prevPath ++ "-" ++ generateNodeId filePath :=
              any_id_eq_false (by simpa using hany)
            simp only [List.map_append, List.map_cons, List.map_nil]
            rw [List.nodup_append]
            refine ⟨hs.1, List.nodup_singleton _, ?_⟩
            intro a ha hb
            obtain ⟨x, hx, hxa⟩ := List.mem_map.mp ha
            simp only [List.mem_singleton] at hb
            exact hne x hx (hxa.trans hb)
          · intro e' he' hn
            rcases List.mem_append.mp he' with h | h
            · exact hs.2.1 e' h hn
            · simp only [List.mem_singleton] at h
              rw [h]
          · intro e₁ h₁ e₂ h₂ n₁ n₂ hp
            rcases List.mem_append.mp h₁ with h₁ | h₁ <;>
              rcases List.mem_append.mp h₂ with h₂ | h₂
            · exact hs.2.2 e₁ h₁ e₂ h₂ n₁ n₂ hp
            · simp only [List.mem_singleton] at h₂
              subst h₂
              exfalso
              have hid := hs.2.1 e₁ h₁ n₁
              rcases hp with ⟨hsrc, htgt⟩ | ⟨hsrc, htgt⟩
              · exact (hno e₁ h₁).1 (by rw [hid, hsrc, htgt])
              · exact (hno e₁ h₁).2 (by rw [hid, hsrc, htgt])
            · simp only [List.mem_singleton] at h₁
              subst h₁
              exfalso
              have hid := hs.2.1 e₂ h₂ n₂
              rcases hp with ⟨hsrc, htgt⟩ | ⟨hsrc, htgt⟩
              · exact (hno e₂ h₂).1 (by rw [hid, ← hsrc, ← htgt])
              · exact (hno e₂ h₂).2 (by rw [hid, ← hsrc, ← htgt])
            · simp only [List.mem_singleton] at h₁ h₂
              rw [h₁, h₂]

theorem navInv_onEditorChange (gdn : String → String) (tr : TrackerState)
    (s : GraphState) (filePath fileName relativePath pluginPath : String)
    (pluginInfo : Option LocalPluginInfo) (now : Int) (hs : NavInvariant s) :
    NavInvariant (onEditorChange gdn tr s filePath fileName relativePath
      pluginPath pluginInfo now).2 := by
  unfold onEditorChange
  dsimp only
  exact navInv_editorChangeEdgePhase _ _ _
    (navInv_editorChangeSourcePhase _ _ _
      (navInv_editorChangeNodePhase _ _ _ _ _ _ _ _ hs))

theorem navInv_onDocumentClose (prev : Option String) (s : GraphState)
    (filePath : String) (hs : NavInvariant s) :
    NavInvariant (onDocumentClose prev s filePath).2 := by
  unfold onDocumentClose
  dsimp only
  split
  · exact hs
  · dsimp only
    have h1 : NavInvariant (deleteNode s (generateNodeId filePath)) :=
      navInv_deleteNode _ hs
    split
    · exact h1
    · apply navInv_ite
      · exact navInv_edges_eq (emptyGroupCleanup_edges _ _) h1
      · exact navInv_edges_eq (updateGroupSize_edges _ _) h1

theorem navInv_onTabClose (s : GraphState) (filePath : String)
    (hs : NavInvariant s) : NavInvariant (onTabClose s filePath) := by
  unfold onTabClose
  dsimp only
  split
  · exact hs
  · have h1 : NavInvariant (deleteNode s (generateNodeId filePath)) :=
      navInv_deleteNode _ hs
    split
    · exact navInv_edges_eq (updateGroupSize_edges _ _) h1
    · exact h1

theorem navInv_webviewDeleteNode (s : GraphState) (nodeId : String)
    (hs : NavInvariant s) : NavInvariant (webviewDeleteNode s nodeId) := by
  unfold webviewDeleteNode
  dsimp only
  have h1 : NavInvariant (deleteNode s nodeId) := navInv_deleteNode _ hs
  split
  · exact h1
  · split
    · exact h1
    · apply navInv_ite
      · exact navInv_edges_eq (emptyGroupCleanup_edges _ _) h1
      · exact h1

theorem navInv_handleModeChange (gdn : String → String) (s : GraphState)
    (newMode : String) (hs : NavInvariant s) :
    NavInvariant (handleModeChange gdn s newMode) := by
  unfold handleModeChange
  split
  · apply foldl_invariant _ _ s hs
    intro a b _ ha
    dsimp only
    apply navInv_ite
    · apply navInv_ite
      · exact navInv_createDependencyGroups _ _ _ _ _ ha
      · exact ha
    · exact ha
  · split
    · apply foldl_invariant _ _ s hs
      intro a b _ ha
      exact navInv_edges_eq (deleteGroup_edges _ _) ha
    · exact hs

theorem navInv_step {s t : GraphState} (h : Step s t) (hs : NavInvariant s) :
    NavInvariant t := by
  cases h with
  | editorChange gdn tr s filePath fileName relativePath pluginPath pinfo now =>
    exact navInv_onEditorChange gdn tr s filePath fileName relativePath
      pluginPath pinfo now hs
  | documentClose prev s filePath => exact navInv_onDocumentClose prev s filePath hs
  | tabClose s filePath => exact navInv_onTabClose s filePath hs
  | modeChange gdn s newMode => exact navInv_handleModeChange gdn s newMode hs
  | webviewDelete s nodeId => exact navInv_webviewDeleteNode s nodeId hs
  | nodePosition s nodeId p => exact navInv_edges_eq rfl hs
  | clearGraph s => exact navInv_empty

theorem navInv_reachable {s : GraphState} (h : ReachableState s) :
    NavInvariant s := by
  unfold ReachableState at h
  induction h with
  | refl => exact navInv_empty
  | tail _ hstep ih => exact navInv_step hstep ih

/-- C4: a navigation edge previous→current is created only when no edge with
either directed id between the two node ids already exists (the guard returns
the state unchanged otherwise), and consequently every reachable graph state
carries at most one non-dependency (navigation) edge per unordered
`{source, target}` pair. -/
theorem nav_edge_unique :
    (∀ (tr : TrackerState) (s₀ : GraphState) (filePath prevPath : String),
      tr.previousFilePath = some prevPath →
      (s₀.edges.any (fun e =>
        e.id == generateNodeId prevPath ++ "-" ++ generateNodeId filePath ||
        e.id == generateNodeId filePath ++ "-" ++ generateNodeId prevPath)) =
          true →
      editorChangeEdgePhase tr s₀ filePath = s₀) ∧
    (∀ s : GraphState, ReachableState s →
      ∀ e₁ ∈ s.edges, ∀ e₂ ∈ s.edges, e₁.isNav → e₂.isNav →
        sameUnorderedPair e₁ e₂ → e₁ = e₂) := by
  constructor
  · intro tr s₀ filePath prevPath hprev hany
    unfold editorChangeEdgePhase
    split
    · rfl
    · rename_i p heq
      have hp : prevPath = p := by
        injection hprev.symm.trans heq
      subst hp
      split
      · rfl
      · dsimp only
        rw [if_pos hany]
  · intro s hs
    exact (navInv_reachable hs).2.2

/-- Witness for `nav_edge_unique`: after one editor change from the empty
state with previous file "a" and current file "b", re-running the edge phase
adds nothing, and the created navigation edge is the unique one on its pair. -/
theorem nav_edge_unique_witness :
    editorChangeEdgePhase
        { previousFilePath := some "a", lastTrackedSymbol := none,
          lastContainingSymbol := none, lastSymbolTimestamp := 0 }
        (onEditorChange (fun r => r)
          { previousFilePath := some "a", lastTrackedSymbol := none,
            lastContainingSymbol := none, lastSymbolTimestamp := 0 }
          emptyState "b" "b" "b" "" none 0).2 "b" =
      (onEditorChange (fun r => r)
        { previousFilePath := some "a", lastTrackedSymbol := none,
          lastContainingSymbol := none, lastSymbolTimestamp := 0 }
        emptyState "b" "b" "b" "" none 0).2 ∧
    ({ id := generateNodeId "a" ++ "-" ++ generateNodeId "b",
       source := generateNodeId "a", target := generateNodeId "b",
       sourceHandle := none, targetHandle := none,
       edgeType := none } : NavigationEdge) =
      { id := generateNodeId "a" ++ "-" ++ generateNodeId "b",
        source := generateNodeId "a", target := generateNodeId "b",
        sourceHandle := none, targetHandle := none, edgeType := none } :=
  ⟨nav_edge_unique.1
      { previousFilePath := some "a", lastTrackedSymbol := none,
        lastContainingSymbol := none, lastSymbolTimestamp := 0 }
      (onEditorChange (fun r => r)
        { previousFilePath := some "a", lastTrackedSymbol := none,
          lastContainingSymbol := none, lastSymbolTimestamp := 0 }
        emptyState "b" "b" "b" "" none 0).2 "b" "a" rfl (by decide),
   nav_edge_unique.2
      (onEditorChange (fun r => r)
        { previousFilePath := some "a", lastTrackedSymbol := none,
          lastContainingSymbol := none, lastSymbolTimestamp := 0 }
        emptyState "b" "b" "b" "" none 0).2
      (Relation.ReflTransGen.single (Step.editorChange (fun r => r)
        { previousFilePath := some "a", lastTrackedSymbol := none,
          lastContainingSymbol := none, lastSymbolTimestamp := 0 }
        emptyState "b" "b" "b" "" none 0))
      { id := generateNodeId "a" ++ "-" ++ generateNodeId "b",
        source := generateNodeId "a", target := generateNodeId "b",
        sourceHandle := none, targetHandle := none, edgeType := none }
      (by decide)
      { id := generateNodeId "a" ++ "-" ++ generateNodeId "b",
        source := generateNodeId "a", target := generateNodeId "b",
        sourceHandle := none, targetHandle := none, edgeType := none }
      (by decide) (by unfold NavigationEdge.isNav; decide)
      (by unfold NavigationEdge.isNav; decide) (Or.inl ⟨rfl, rfl⟩)⟩
